import Mathlib

/-!
# Doom64EX `wad::init` (src/engine/wad/wad.cc)

A shallow embedding of the bootstrap sequence `wad::init`.  The function only
orchestrates calls to collaborators that live outside `wad.cc`
(`wad::add_device_loader`, `app::find_data_file`, `wad::add_device`,
`native_ui::rom_select`, the Win32 directory and copy calls, `std::exit`,
`log::fatal`, `wad::merge`).  Every such call is recorded as an `Event`; the
answers of the collaborators are parameters (`Env`), each a function of the
events that happened so far, so that a collaborator may answer differently
every time it is called.

The `#ifdef _WIN32` block is selected by the Boolean `win32`.
The `while` loop is unrolled by a fuel argument counting loop iterations.
-/

namespace wad

/-- The three loader probes named in `wad.cc` (declared in `wad_loaders.hh`). -/
inductive Loader
  | zip_loader
  | doom_loader
  | rom_loader
  deriving DecidableEq, Repr

/-- One externally visible action of `wad::init`, with the answer it received. -/
inductive Event
  | add_device_loader (l : Loader)
  | find_data_file (name : String) (result : Option String)
  | add_device (path : String) (ok : Bool)
  | GetCurrentDirectory (cd : String)
  | rom_select (result : Option String)
  | SetCurrentDirectory (cd : String)
  | CopyFile (src dst : String) (bFailIfExists : Bool)
  | exit (status : Int)
  | fatal (msg : String)
  | merge
  deriving DecidableEq, Repr

/-- The collaborators of `wad::init`.  Each answer may depend on everything
that happened before the call.  `fatal_returns` tells whether a call of
`log::fatal` gives control back to its caller (the spec, section 6, says it
halts the process; `wad.cc` has a `break` after one of its two calls). -/
structure Env where
  find_data_file : List Event → String → Option String
  add_device : List Event → String → Bool
  rom_select : List Event → Option String
  GetCurrentDirectory : List Event → String
  fatal_returns : List Event → String → Bool

/-- How the `while (!iwad_loaded)` loop was left. -/
inductive LoopExit
  | loaded                 -- the loop condition became false
  | broke                  -- `break` on line 46, after `log::fatal` returned
  | exited (status : Int)  -- `std::exit` on line 38
  | halted                 -- `log::fatal` on line 45 did not return
  | running                -- the fuel ran out, the loop is still iterating
  deriving DecidableEq, Repr

/-- How a run of `wad::init` ended. -/
inductive Outcome
  | returned               -- `wad::init` returned to its caller
  | exited (status : Int)  -- the process ended through `std::exit`
  | halted                 -- the process ended inside `log::fatal`
  | running                -- the fuel ran out inside the loop
  deriving DecidableEq, Repr

/-- A run: the actions in the order they happened, and how the run ended. -/
structure Run where
  trace : List Event
  outcome : Outcome
  deriving DecidableEq, Repr

/-- Lines 24-26: look for `doom64.rom`, and mount it when it was found.
Gives the actions and the new value of `iwad_loaded` (which is `false` when
the loop body starts). `h` is the list of actions before this point. -/
def find_and_add (env : Env) (h : List Event) : List Event × Bool :=
  match env.find_data_file h "doom64.rom" with
  | some path =>
    let iwad_loaded := env.add_device (h ++ [Event.find_data_file "doom64.rom" (some path)]) path
    ([Event.find_data_file "doom64.rom" (some path), Event.add_device path iwad_loaded], iwad_loaded)
  | none => ([Event.find_data_file "doom64.rom" none], false)

/-- Lines 23-49: the loop `while (!iwad_loaded)`, entered with
`iwad_loaded = false`.  One unit of fuel is one execution of the loop body. -/
def iwad_loop (win32 : Bool) (env : Env) : Nat → List Event → List Event × LoopExit
  | 0, _ => ([], LoopExit.running)
  | fuel + 1, h =>
    let a := find_and_add env h
    if win32 then
      -- lines 29-42
      if !a.2 then
        let cd := env.GetCurrentDirectory (h ++ a.1)
        let str := env.rom_select (h ++ (a.1 ++ [Event.GetCurrentDirectory cd]))
        let t := a.1 ++ [Event.GetCurrentDirectory cd, Event.rom_select str,
                         Event.SetCurrentDirectory cd]
        match str with
        | none => (t ++ [Event.exit 0], LoopExit.exited 0)
        | some s =>
          let t2 := t ++ [Event.CopyFile s "doom64.rom" false]
          -- `iwad_loaded` is still false: the loop body runs again
          let r := iwad_loop win32 env fuel (h ++ t2)
          (t2 ++ r.1, r.2)
      else (a.1, LoopExit.loaded)
    else
      -- lines 44-47
      if !a.2 then
        let t := a.1 ++ [Event.fatal "Couldn't find 'doom64.rom'"]
        if env.fatal_returns (h ++ a.1) "Couldn't find 'doom64.rom'" then (t, LoopExit.broke)
        else (t, LoopExit.halted)
      else (a.1, LoopExit.loaded)

/-- Lines 51-58: look for `doom64ex.pk3`, mount it (the result of
`wad::add_device` is not looked at), then `wad::merge`. -/
def engine_data_and_merge (env : Env) (h : List Event) : Run :=
  match env.find_data_file h "doom64ex.pk3" with
  | some engine_data_path =>
    let ok := env.add_device (h ++ [Event.find_data_file "doom64ex.pk3" (some engine_data_path)])
      engine_data_path
    ⟨[Event.find_data_file "doom64ex.pk3" (some engine_data_path),
      Event.add_device engine_data_path ok, Event.merge], Outcome.returned⟩
  | none =>
    if env.fatal_returns (h ++ [Event.find_data_file "doom64ex.pk3" none])
        "Couldn't find 'doom64ex.pk3'" then
      ⟨[Event.find_data_file "doom64ex.pk3" none, Event.fatal "Couldn't find 'doom64ex.pk3'",
        Event.merge], Outcome.returned⟩
    else
      ⟨[Event.find_data_file "doom64ex.pk3" none, Event.fatal "Couldn't find 'doom64ex.pk3'"],
        Outcome.halted⟩

/-- Lines 18-20: the three loader registrations. -/
def add_device_loaders : List Event :=
  [Event.add_device_loader Loader.zip_loader, Event.add_device_loader Loader.doom_loader,
   Event.add_device_loader Loader.rom_loader]

/-- The function `wad::init` (lines 12-59). -/
def init (win32 : Bool) (env : Env) (fuel : Nat) : Run :=
  let l := iwad_loop win32 env fuel add_device_loaders
  match l.2 with
  | LoopExit.loaded | LoopExit.broke =>
    let r := engine_data_and_merge env (add_device_loaders ++ l.1)
    ⟨add_device_loaders ++ l.1 ++ r.trace, r.outcome⟩
  | LoopExit.exited status => ⟨add_device_loaders ++ l.1, Outcome.exited status⟩
  | LoopExit.halted => ⟨add_device_loaders ++ l.1, Outcome.halted⟩
  | LoopExit.running => ⟨add_device_loaders ++ l.1, Outcome.running⟩

/-! ## Observations on a list of actions -/

/-- Number of calls of `app::find_data_file` for the file `name`. -/
def count_find (name : String) (t : List Event) : Nat :=
  t.countP (fun e => match e with
    | Event.find_data_file n _ => n == name
    | _ => false)

/-- Number of calls of `wad::add_device`. -/
def count_add_device (t : List Event) : Nat :=
  t.countP (fun e => match e with
    | Event.add_device _ _ => true
    | _ => false)

/-- Number of times the file picker gave a path back. -/
def count_picked (t : List Event) : Nat :=
  t.countP (fun e => match e with
    | Event.rom_select (some _) => true
    | _ => false)

/-- Modelled from the spec: `wad::add_device_loader` is declared outside
`wad.cc`.  Section 4.1: `register` appends a probe to a fixed evaluation
order, registration order is trial order.  The registry after the actions
`t`, when it held `r0` before them. -/
def loader_registry (r0 : List Loader) (t : List Event) : List Loader :=
  r0 ++ t.filterMap (fun e => match e with
    | Event.add_device_loader l => some l
    | _ => none)

/-- Modelled from the spec: `wad::add_device` is declared outside `wad.cc`.
Sections 2 and 3: a successful mount appends the device to the Device Store,
which keeps the mount order.  A device is named by the path it was opened
from. -/
def device_store (t : List Event) : List String :=
  t.filterMap (fun e => match e with
    | Event.add_device path true => some path
    | _ => none)

/-- Modelled from the spec: the merge result of section 3, a mapping from a
logical name to its owner (the position of the device in the Device Store)
and the content locator. -/
abbrev Namespace := String → Option (Nat × Nat)

/-- Modelled from the spec: section 4.3, the entries of one device are
inserted one after the other, an insertion overwrites an existing entry of
the same name. -/
def merge_device (ns : Namespace) (idx : Nat) (entries : List (String × Nat)) : Namespace :=
  entries.foldl (fun acc e => fun n => if n = e.1 then some (idx, e.2) else acc n) ns

/-- Modelled from the spec: section 4.3, the devices are visited in Device
Store order, `idx` is the position of the next device. -/
def merge_from (ns : Namespace) (idx : Nat) : List (List (String × Nat)) → Namespace
  | [] => ns
  | d :: ds => merge_from (merge_device ns idx d) (idx + 1) ds

/-- Modelled from the spec: `wad::merge` is declared outside `wad.cc`.
Section 4.3: `merge(Device Store) → Namespace`, starting from the empty
mapping. Each device is given by its entries (logical name, locator). -/
def merge (store : List (List (String × Nat))) : Namespace :=
  merge_from (fun _ => none) 0 store

/-! ## The shape of a run -/

/-- A loop body's first part (lines 24-26) that did not mount the base
container: the file was not found, or it was found and the mount failed. -/
inductive FailedAttempt : List Event → Prop
  | not_found : FailedAttempt [Event.find_data_file "doom64.rom" none]
  | mount_failed (p : String) :
      FailedAttempt [Event.find_data_file "doom64.rom" (some p), Event.add_device p false]

/-- The action sequences the loop can produce, with the way it was left. -/
inductive LoopShape : Bool → List Event → LoopExit → Prop
  | fuel_out (w : Bool) : LoopShape w [] LoopExit.running
  | loaded (w : Bool) (p : String) :
      LoopShape w [Event.find_data_file "doom64.rom" (some p), Event.add_device p true]
        LoopExit.loaded
  | cancel (a : List Event) (cd : String) : FailedAttempt a →
      LoopShape true (a ++ [Event.GetCurrentDirectory cd, Event.rom_select none,
        Event.SetCurrentDirectory cd, Event.exit 0]) (LoopExit.exited 0)
  | retry (a : List Event) (cd s : String) (t : List Event) (ex : LoopExit) :
      FailedAttempt a → LoopShape true t ex →
      LoopShape true (a ++ [Event.GetCurrentDirectory cd, Event.rom_select (some s),
        Event.SetCurrentDirectory cd, Event.CopyFile s "doom64.rom" false] ++ t) ex
  | fatal_halt (a : List Event) : FailedAttempt a →
      LoopShape false (a ++ [Event.fatal "Couldn't find 'doom64.rom'"]) LoopExit.halted
  | fatal_break (a : List Event) : FailedAttempt a →
      LoopShape false (a ++ [Event.fatal "Couldn't find 'doom64.rom'"]) LoopExit.broke

/-- The kinds of action the loop performs. -/
def LoopEvent : Event → Prop
  | Event.find_data_file n _ => n = "doom64.rom"
  | Event.add_device _ _ => True
  | Event.GetCurrentDirectory _ => True
  | Event.rom_select _ => True
  | Event.SetCurrentDirectory _ => True
  | Event.CopyFile _ dst b => dst = "doom64.rom" ∧ b = false
  | Event.exit status => status = 0
  | Event.fatal msg => msg = "Couldn't find 'doom64.rom'"
  | Event.add_device_loader _ => False
  | Event.merge => False

/-- The kinds of action lines 51-58 perform. -/
def TailEvent : Event → Prop
  | Event.find_data_file n _ => n = "doom64ex.pk3"
  | Event.add_device _ _ => True
  | Event.fatal msg => msg = "Couldn't find 'doom64ex.pk3'"
  | Event.merge => True
  | _ => False

/-- The action sequences of lines 51-58 after the loop was left through `ex`
with the actions `h` done, and the outcome of the run. -/
inductive TailShape (env : Env) (h : List Event) : LoopExit → List Event → Outcome → Prop
  | mounted (ex : LoopExit) (q : String) (ok : Bool) :
      ex = LoopExit.loaded ∨ ex = LoopExit.broke →
      TailShape env h ex [Event.find_data_file "doom64ex.pk3" (some q), Event.add_device q ok,
        Event.merge] Outcome.returned
  | fatal_returned (ex : LoopExit) :
      ex = LoopExit.loaded ∨ ex = LoopExit.broke →
      env.fatal_returns (h ++ [Event.find_data_file "doom64ex.pk3" none])
        "Couldn't find 'doom64ex.pk3'" = true →
      TailShape env h ex [Event.find_data_file "doom64ex.pk3" none,
        Event.fatal "Couldn't find 'doom64ex.pk3'", Event.merge] Outcome.returned
  | fatal_halted (ex : LoopExit) :
      ex = LoopExit.loaded ∨ ex = LoopExit.broke →
      env.fatal_returns (h ++ [Event.find_data_file "doom64ex.pk3" none])
        "Couldn't find 'doom64ex.pk3'" = false →
      TailShape env h ex [Event.find_data_file "doom64ex.pk3" none,
        Event.fatal "Couldn't find 'doom64ex.pk3'"] Outcome.halted
  | exited (status : Int) : TailShape env h (LoopExit.exited status) [] (Outcome.exited status)
  | halted : TailShape env h LoopExit.halted [] Outcome.halted
  | running : TailShape env h LoopExit.running [] Outcome.running

/-! ## Concrete collaborators -/

/-- Nothing is found, the user cancels the picker, `log::fatal` halts. -/
def env_nothing_found : Env where
  find_data_file := fun _ _ => none
  add_device := fun _ _ => false
  rom_select := fun _ => none
  GetCurrentDirectory := fun _ => "C:/Doom64EX"
  fatal_returns := fun _ _ => false

/-- A `doom64.rom` is found but no loader opens it; the user picks a file
the first time the picker is shown and cancels the second time. -/
def env_pick_then_cancel : Env where
  find_data_file := fun _ name => if name = "doom64.rom" then some "C:/Doom64EX/doom64.rom" else none
  add_device := fun _ _ => false
  rom_select := fun h => if h.length < 7 then some "D:/roms/doom64.z64" else none
  GetCurrentDirectory := fun _ => "C:/Doom64EX"
  fatal_returns := fun _ _ => false

/-- Both containers are found and mounted. -/
def env_both_mounted : Env where
  find_data_file := fun _ name => some ("/usr/share/doom64ex/" ++ name)
  add_device := fun _ _ => true
  rom_select := fun _ => none
  GetCurrentDirectory := fun _ => "/home/player"
  fatal_returns := fun _ _ => false

/-- The base container is found and mounted, `doom64ex.pk3` is not found. -/
def env_no_engine_data : Env where
  find_data_file := fun _ name =>
    if name = "doom64.rom" then some "/usr/share/doom64ex/doom64.rom" else none
  add_device := fun _ _ => true
  rom_select := fun _ => none
  GetCurrentDirectory := fun _ => "/home/player"
  fatal_returns := fun _ _ => false

/-- Both containers are found, the base container is mounted, no loader
opens `doom64ex.pk3`. -/
def env_engine_data_unreadable : Env where
  find_data_file := fun _ name => some ("/usr/share/doom64ex/" ++ name)
  add_device := fun _ path => decide (path = "/usr/share/doom64ex/doom64.rom")
  rom_select := fun _ => none
  GetCurrentDirectory := fun _ => "/home/player"
  fatal_returns := fun _ _ => false

/-! # Lemmas -/

/-! ## Unfolding the loop -/

theorem find_and_add_cases (env : Env) (h : List Event) :
    (∃ p, find_and_add env h =
        ([Event.find_data_file "doom64.rom" (some p), Event.add_device p true], true)) ∨
    ((find_and_add env h).2 = false ∧ FailedAttempt (find_and_add env h).1) := by
  unfold find_and_add
  cases hf : env.find_data_file h "doom64.rom" with
  | none => right; exact ⟨rfl, FailedAttempt.not_found⟩
  | some p =>
    cases ha : env.add_device (h ++ [Event.find_data_file "doom64.rom" (some p)]) p with
    | true => left; exact ⟨p, by simp [ha]⟩
    | false => right; simp [ha]; exact FailedAttempt.mount_failed p

theorem iwad_loop_loaded (win32 : Bool) (env : Env) (n : Nat) (h : List Event)
    (hl : (find_and_add env h).2 = true) :
    iwad_loop win32 env (n + 1) h = ((find_and_add env h).1, LoopExit.loaded) := by
  cases win32 <;> simp [iwad_loop, hl]

theorem iwad_loop_fatal (env : Env) (n : Nat) (h : List Event)
    (hl : (find_and_add env h).2 = false) :
    iwad_loop false env (n + 1) h =
      ((find_and_add env h).1 ++ [Event.fatal "Couldn't find 'doom64.rom'"],
       if env.fatal_returns (h ++ (find_and_add env h).1) "Couldn't find 'doom64.rom'"
       then LoopExit.broke else LoopExit.halted) := by
  cases hf : env.fatal_returns (h ++ (find_and_add env h).1) "Couldn't find 'doom64.rom'" <;>
    simp [iwad_loop, hl, hf]

theorem iwad_loop_cancel (env : Env) (n : Nat) (h : List Event)
    (hl : (find_and_add env h).2 = false)
    (hs : env.rom_select (h ++ ((find_and_add env h).1 ++
      [Event.GetCurrentDirectory (env.GetCurrentDirectory (h ++ (find_and_add env h).1))])) = none) :
    iwad_loop true env (n + 1) h =
      ((find_and_add env h).1 ++
        [Event.GetCurrentDirectory (env.GetCurrentDirectory (h ++ (find_and_add env h).1)),
         Event.rom_select none,
         Event.SetCurrentDirectory (env.GetCurrentDirectory (h ++ (find_and_add env h).1)),
         Event.exit 0], LoopExit.exited 0) := by
  simp [iwad_loop, hl, hs]

theorem iwad_loop_retry (env : Env) (n : Nat) (h : List Event) (s : String)
    (hl : (find_and_add env h).2 = false)
    (hs : env.rom_select (h ++ ((find_and_add env h).1 ++
      [Event.GetCurrentDirectory (env.GetCurrentDirectory (h ++ (find_and_add env h).1))])) = some s) :
    iwad_loop true env (n + 1) h =
      ((find_and_add env h).1 ++
        [Event.GetCurrentDirectory (env.GetCurrentDirectory (h ++ (find_and_add env h).1)),
         Event.rom_select (some s),
         Event.SetCurrentDirectory (env.GetCurrentDirectory (h ++ (find_and_add env h).1)),
         Event.CopyFile s "doom64.rom" false] ++
        (iwad_loop true env n (h ++ ((find_and_add env h).1 ++
        [Event.GetCurrentDirectory (env.GetCurrentDirectory (h ++ (find_and_add env h).1)),
         Event.rom_select (some s),
         Event.SetCurrentDirectory (env.GetCurrentDirectory (h ++ (find_and_add env h).1)),
         Event.CopyFile s "doom64.rom" false]))).1,
       (iwad_loop true env n (h ++ ((find_and_add env h).1 ++
        [Event.GetCurrentDirectory (env.GetCurrentDirectory (h ++ (find_and_add env h).1)),
         Event.rom_select (some s),
         Event.SetCurrentDirectory (env.GetCurrentDirectory (h ++ (find_and_add env h).1)),
         Event.CopyFile s "doom64.rom" false]))).2) := by
  simp [iwad_loop, hl, hs]

theorem iwad_loop_shape (win32 : Bool) (env : Env) (fuel : Nat) (h : List Event) :
    LoopShape win32 (iwad_loop win32 env fuel h).1 (iwad_loop win32 env fuel h).2 := by
  induction fuel generalizing h with
  | zero => exact LoopShape.fuel_out win32
  | succ n ih =>
    rcases find_and_add_cases env h with ⟨p, hp⟩ | ⟨h2, ha⟩
    · rw [iwad_loop_loaded win32 env n h (by rw [hp]), hp]
      exact LoopShape.loaded _ p
    · cases win32
      · rw [iwad_loop_fatal env n h h2]
        split
        · exact LoopShape.fatal_break _ ha
        · exact LoopShape.fatal_halt _ ha
      · cases hs : env.rom_select (h ++ ((find_and_add env h).1 ++
          [Event.GetCurrentDirectory (env.GetCurrentDirectory (h ++ (find_and_add env h).1))])) with
        | none =>
          rw [iwad_loop_cancel env n h h2 hs]
          exact LoopShape.cancel _ _ ha
        | some s =>
          rw [iwad_loop_retry env n h s h2 hs]
          exact LoopShape.retry _ _ _ _ _ ha (ih _)

/-- The three possible forms of lines 51-58. -/
theorem engine_data_and_merge_cases (env : Env) (h : List Event) :
    (∃ q ok, engine_data_and_merge env h =
      ⟨[Event.find_data_file "doom64ex.pk3" (some q), Event.add_device q ok, Event.merge],
        Outcome.returned⟩) ∨
    (env.fatal_returns (h ++ [Event.find_data_file "doom64ex.pk3" none])
        "Couldn't find 'doom64ex.pk3'" = true ∧
      engine_data_and_merge env h =
      ⟨[Event.find_data_file "doom64ex.pk3" none, Event.fatal "Couldn't find 'doom64ex.pk3'",
        Event.merge], Outcome.returned⟩) ∨
    (env.fatal_returns (h ++ [Event.find_data_file "doom64ex.pk3" none])
        "Couldn't find 'doom64ex.pk3'" = false ∧
      engine_data_and_merge env h =
      ⟨[Event.find_data_file "doom64ex.pk3" none, Event.fatal "Couldn't find 'doom64ex.pk3'"],
        Outcome.halted⟩) := by
  unfold engine_data_and_merge
  cases hf : env.find_data_file h "doom64ex.pk3" with
  | some q => left; exact ⟨q, _, rfl⟩
  | none =>
    right
    cases hr : env.fatal_returns (h ++ [Event.find_data_file "doom64ex.pk3" none])
        "Couldn't find 'doom64ex.pk3'" <;> simp

theorem engine_data_and_merge_shape (env : Env) (h : List Event) (ex : LoopExit)
    (hex : ex = LoopExit.loaded ∨ ex = LoopExit.broke) :
    TailShape env h ex (engine_data_and_merge env h).trace
      (engine_data_and_merge env h).outcome := by
  rcases engine_data_and_merge_cases env h with ⟨q, ok, he⟩ | ⟨hf, he⟩ | ⟨hf, he⟩
  · rw [he]; exact TailShape.mounted _ q ok hex
  · rw [he]; exact TailShape.fatal_returned _ hex hf
  · rw [he]; exact TailShape.fatal_halted _ hex hf

theorem init_shape (win32 : Bool) (env : Env) (fuel : Nat) :
    ∃ L ex T, iwad_loop win32 env fuel add_device_loaders = (L, ex) ∧
      (init win32 env fuel).trace = add_device_loaders ++ L ++ T ∧
      LoopShape win32 L ex ∧
      TailShape env (add_device_loaders ++ L) ex T (init win32 env fuel).outcome := by
  have hs := iwad_loop_shape win32 env fuel add_device_loaders
  unfold init
  cases hl : iwad_loop win32 env fuel add_device_loaders with
  | mk L ex =>
    rw [hl] at hs
    simp only at hs
    refine ⟨L, ex, ?_⟩
    cases ex with
    | loaded =>
      exact ⟨_, rfl, rfl, hs, engine_data_and_merge_shape env _ _ (Or.inl rfl)⟩
    | broke =>
      exact ⟨_, rfl, rfl, hs, engine_data_and_merge_shape env _ _ (Or.inr rfl)⟩
    | exited st => exact ⟨[], rfl, by simp, hs, TailShape.exited st⟩
    | halted => exact ⟨[], rfl, by simp, hs, TailShape.halted⟩
    | running => exact ⟨[], rfl, by simp, hs, TailShape.running⟩

/-! ## Splitting a list at one of its elements -/

theorem split_cases {α : Type} {A B pre post : List α} {x : α}
    (h : A ++ B = pre ++ x :: post) :
    (∃ v, A = pre ++ x :: v ∧ post = v ++ B) ∨ (∃ u, pre = A ++ u ∧ B = u ++ x :: post) := by
  induction A generalizing pre with
  | nil => right; exact ⟨pre, by simp, by simpa using h⟩
  | cons a A ih =>
    cases pre with
    | nil =>
      left
      simp only [List.cons_append, List.nil_append, List.cons.injEq] at h
      exact ⟨A, by simp [h.1], h.2.symm⟩
    | cons p pre =>
      simp only [List.cons_append, List.cons.injEq] at h
      rcases ih h.2 with ⟨v, h1, h2⟩ | ⟨u, h1, h2⟩
      · left; exact ⟨v, by simp [h.1, h1], h2⟩
      · right; exact ⟨u, by simp [h.1, h1], h2⟩

theorem split_left {α : Type} {A B pre post : List α} {x : α} (hx : x ∉ A)
    (h : A ++ B = pre ++ x :: post) : ∃ u, pre = A ++ u ∧ B = u ++ x :: post := by
  rcases split_cases h with ⟨v, h1, _⟩ | h'
  · exact absurd (by simp [h1]) hx
  · exact h'

theorem split_right {α : Type} {A B pre post : List α} {x : α} (hx : x ∉ B)
    (h : A ++ B = pre ++ x :: post) : ∃ v, A = pre ++ x :: v ∧ post = v ++ B := by
  rcases split_cases h with h' | ⟨u, _, h2⟩
  · exact h'
  · exact absurd (by simp [h2]) hx

theorem split_head {α : Type} {R u post : List α} {x : α} (hx : x ∉ R)
    (h : x :: R = u ++ x :: post) : u = [] ∧ post = R := by
  cases u with
  | nil => simp at h; exact ⟨rfl, h.symm⟩
  | cons a u =>
    simp only [List.cons_append, List.cons.injEq] at h
    exact absurd (by simp [h.2]) hx

theorem mem_of_split {α : Type} {L pre post : List α} {x : α} (h : L = pre ++ x :: post) :
    x ∈ L := by simp [h]

/-! ## Facts on the loop's action sequences -/

theorem failed_attempt_mem {a : List Event} (ha : FailedAttempt a) {e : Event} (he : e ∈ a) :
    (∃ r, e = Event.find_data_file "doom64.rom" r) ∨ (∃ p, e = Event.add_device p false) := by
  cases ha with
  | not_found => simp at he; exact Or.inl ⟨_, he⟩
  | mount_failed p =>
    simp at he
    rcases he with he | he
    · exact Or.inl ⟨_, he⟩
    · exact Or.inr ⟨_, he⟩

theorem failed_attempt_not_mem {a : List Event} (ha : FailedAttempt a) {e : Event}
    (h1 : ∀ r, e ≠ Event.find_data_file "doom64.rom" r) (h2 : ∀ p, e ≠ Event.add_device p false) :
    e ∉ a := by
  intro he
  rcases failed_attempt_mem ha he with ⟨r, hr⟩ | ⟨p, hp⟩
  · exact h1 r hr
  · exact h2 p hp

theorem loop_events {w : Bool} {L : List Event} {ex : LoopExit} (hs : LoopShape w L ex) :
    ∀ e ∈ L, LoopEvent e := by
  have hfa : ∀ a, FailedAttempt a → ∀ e ∈ a, LoopEvent e := by
    intro a ha e he
    rcases failed_attempt_mem ha he with ⟨r, hr⟩ | ⟨p, hp⟩
    · subst hr; simp [LoopEvent]
    · subst hp; simp [LoopEvent]
  induction hs with
  | fuel_out w => simp
  | loaded w p => simp [LoopEvent]
  | cancel a cd ha =>
    intro e he
    rcases List.mem_append.1 he with he | he
    · exact hfa a ha e he
    · simp at he; rcases he with he | he | he | he <;> subst he <;> simp [LoopEvent]
  | retry a cd s t ex ha _ ih =>
    intro e he
    rcases List.mem_append.1 he with he | he
    · rcases List.mem_append.1 he with he | he
      · exact hfa a ha e he
      · simp at he; rcases he with he | he | he | he <;> subst he <;> simp [LoopEvent]
    · exact ih e he
  | fatal_halt a ha =>
    intro e he
    rcases List.mem_append.1 he with he | he
    · exact hfa a ha e he
    · simp at he; subst he; simp [LoopEvent]
  | fatal_break a ha =>
    intro e he
    rcases List.mem_append.1 he with he | he
    · exact hfa a ha e he
    · simp at he; subst he; simp [LoopEvent]

theorem loop_not_mem {w : Bool} {L : List Event} {ex : LoopExit} (hs : LoopShape w L ex)
    {e : Event} (he : ¬ LoopEvent e) : e ∉ L :=
  fun hm => he (loop_events hs e hm)

/-- A loop's action sequence is empty (the fuel ran out before the first
iteration) or starts with a search of `doom64.rom`. -/
theorem loop_head {w : Bool} {L : List Event} {ex : LoopExit} (hs : LoopShape w L ex) :
    (L = [] ∧ ex = LoopExit.running) ∨
    ∃ r rest, L = Event.find_data_file "doom64.rom" r :: rest := by
  have hfa : ∀ a, FailedAttempt a → ∀ b, ∃ r rest, a ++ b =
      Event.find_data_file "doom64.rom" r :: rest := by
    intro a ha b
    cases ha with
    | not_found => exact ⟨_, _, rfl⟩
    | mount_failed p => exact ⟨_, _, rfl⟩
  cases hs with
  | fuel_out w => exact Or.inl ⟨rfl, rfl⟩
  | loaded w p => exact Or.inr ⟨_, _, rfl⟩
  | cancel a cd ha => exact Or.inr (hfa a ha _)
  | retry a cd s t ex ha _ =>
    right
    obtain ⟨r, rest, h⟩ := hfa a ha ([Event.GetCurrentDirectory cd, Event.rom_select (some s),
        Event.SetCurrentDirectory cd, Event.CopyFile s "doom64.rom" false] ++ t)
    exact ⟨r, rest, by rw [← h, List.append_assoc]⟩
  | fatal_halt a ha => exact Or.inr (hfa a ha _)
  | fatal_break a ha => exact Or.inr (hfa a ha _)

/-- After a cancel the loop only restores the directory and exits. -/
theorem loop_cancel_split {w : Bool} {L : List Event} {ex : LoopExit} (hs : LoopShape w L ex)
    {pre post : List Event} (h : L = pre ++ Event.rom_select none :: post) :
    ex = LoopExit.exited 0 ∧
    ∃ cd pre', pre = pre' ++ [Event.GetCurrentDirectory cd] ∧
      post = [Event.SetCurrentDirectory cd, Event.exit 0] := by
  induction hs generalizing pre with
  | fuel_out w => simp at h
  | loaded w p => have := mem_of_split h; simp at this
  | cancel a cd ha =>
    have hx : Event.rom_select none ∉ a ++ [Event.GetCurrentDirectory cd] := by
      intro hm
      rcases List.mem_append.1 hm with hm | hm
      · exact failed_attempt_not_mem ha (by simp) (by simp) hm
      · simp at hm
    have h' : (a ++ [Event.GetCurrentDirectory cd]) ++ [Event.rom_select none,
        Event.SetCurrentDirectory cd, Event.exit 0] = pre ++ Event.rom_select none :: post := by
      simpa using h
    obtain ⟨u, hu1, hu2⟩ := split_left hx h'
    obtain ⟨hu, hp⟩ := split_head (by simp) hu2
    subst hu
    exact ⟨rfl, cd, a, by simpa using hu1, hp⟩
  | retry a cd s t ex ha _ ih =>
    have hx : Event.rom_select none ∉ a ++ [Event.GetCurrentDirectory cd,
        Event.rom_select (some s), Event.SetCurrentDirectory cd,
        Event.CopyFile s "doom64.rom" false] := by
      intro hm
      rcases List.mem_append.1 hm with hm | hm
      · exact failed_attempt_not_mem ha (by simp) (by simp) hm
      · simp at hm
    obtain ⟨u, hu1, hu2⟩ := split_left hx h
    obtain ⟨hex, cd', pre', hp1, hp2⟩ := ih hu2
    exact ⟨hex, cd', (a ++ [Event.GetCurrentDirectory cd,
        Event.rom_select (some s), Event.SetCurrentDirectory cd,
        Event.CopyFile s "doom64.rom" false]) ++ pre', by simp [hu1, hp1], hp2⟩
  | fatal_halt a ha =>
    have hm := mem_of_split h
    rcases List.mem_append.1 hm with hm | hm
    · exact absurd hm (failed_attempt_not_mem ha (by simp) (by simp))
    · simp at hm
  | fatal_break a ha =>
    have hm := mem_of_split h
    rcases List.mem_append.1 hm with hm | hm
    · exact absurd hm (failed_attempt_not_mem ha (by simp) (by simp))
    · simp at hm

theorem failed_attempt_store {a : List Event} (ha : FailedAttempt a) : device_store a = [] := by
  cases ha <;> simp [device_store]

theorem device_store_append (s t : List Event) :
    device_store (s ++ t) = device_store s ++ device_store t := by
  simp [device_store, List.filterMap_append]

theorem mem_device_store {t : List Event} {p : String} (h : Event.add_device p true ∈ t) :
    p ∈ device_store t := by
  unfold device_store
  exact List.mem_filterMap.2 ⟨_, h, rfl⟩

/-- The loop mounts exactly one device when it is left with the base
container loaded, and none otherwise. -/
theorem loop_store {w : Bool} {L : List Event} {ex : LoopExit} (hs : LoopShape w L ex) :
    (ex = LoopExit.loaded ∧ ∃ u p, L = u ++ [Event.find_data_file "doom64.rom" (some p),
        Event.add_device p true] ∧ device_store L = [p]) ∨
    (ex ≠ LoopExit.loaded ∧ device_store L = []) := by
  induction hs with
  | fuel_out w => right; simp [device_store]
  | loaded w p => left; exact ⟨rfl, [], p, rfl, by simp [device_store]⟩
  | cancel a cd ha =>
    right
    rw [device_store_append, failed_attempt_store ha]
    simp [device_store]
  | retry a cd s t ex ha _ ih =>
    have hb : device_store (a ++ [Event.GetCurrentDirectory cd, Event.rom_select (some s),
        Event.SetCurrentDirectory cd, Event.CopyFile s "doom64.rom" false]) = [] := by
      rw [device_store_append, failed_attempt_store ha]
      simp [device_store]
    rcases ih with ⟨hex, u, p, hu, hst⟩ | ⟨hex, hst⟩
    · left
      refine ⟨hex, (a ++ [Event.GetCurrentDirectory cd, Event.rom_select (some s),
        Event.SetCurrentDirectory cd, Event.CopyFile s "doom64.rom" false]) ++ u, p, ?_, ?_⟩
      · simp [hu]
      · rw [device_store_append, hb, hst]; rfl
    · right
      exact ⟨hex, by rw [device_store_append, hb, hst]; rfl⟩
  | fatal_halt a ha =>
    right
    rw [device_store_append, failed_attempt_store ha]
    simp [device_store]
  | fatal_break a ha =>
    right
    rw [device_store_append, failed_attempt_store ha]
    simp [device_store]

/-- On a platform with the file picker the loop never calls `log::fatal`. -/
theorem loop_win32_no_fatal {w : Bool} {L : List Event} {ex : LoopExit} (hs : LoopShape w L ex)
    (hw : w = true) (m : String) : Event.fatal m ∉ L := by
  induction hs with
  | fuel_out w => simp
  | loaded w p => simp
  | cancel a cd ha =>
    intro hm
    rcases List.mem_append.1 hm with hm | hm
    · exact failed_attempt_not_mem ha (by simp) (by simp) hm
    · simp at hm
  | retry a cd s t ex ha _ ih =>
    intro hm
    rcases List.mem_append.1 hm with hm | hm
    · rcases List.mem_append.1 hm with hm | hm
      · exact failed_attempt_not_mem ha (by simp) (by simp) hm
      · simp at hm
    · exact ih hw hm
  | fatal_halt a ha => simp at hw
  | fatal_break a ha => simp at hw

/-- What surrounds a path given back by the file picker. -/
theorem loop_pick_split {w : Bool} {L : List Event} {ex : LoopExit} (hs : LoopShape w L ex)
    {pre post : List Event} {s : String} (h : L = pre ++ Event.rom_select (some s) :: post) :
    ∃ cd pre' post', pre = pre' ++ [Event.GetCurrentDirectory cd] ∧
      post = Event.SetCurrentDirectory cd :: Event.CopyFile s "doom64.rom" false :: post' ∧
      LoopShape w post' ex := by
  induction hs generalizing pre with
  | fuel_out w => simp at h
  | loaded w p => have := mem_of_split h; simp at this
  | cancel a cd ha =>
    have hm := mem_of_split h
    rcases List.mem_append.1 hm with hm | hm
    · exact absurd hm (failed_attempt_not_mem ha (by simp) (by simp))
    · simp at hm
  | retry a cd s0 t ex ha ht ih =>
    rcases split_cases h with ⟨v, h1, h2⟩ | ⟨u, h1, h2⟩
    · have hx : Event.rom_select (some s) ∉ a ++ [Event.GetCurrentDirectory cd] := by
        intro hm
        rcases List.mem_append.1 hm with hm | hm
        · exact failed_attempt_not_mem ha (by simp) (by simp) hm
        · simp at hm
      have h1' : (a ++ [Event.GetCurrentDirectory cd]) ++ [Event.rom_select (some s0),
          Event.SetCurrentDirectory cd, Event.CopyFile s0 "doom64.rom" false] =
          pre ++ Event.rom_select (some s) :: v := by simpa using h1
      obtain ⟨u, hu1, hu2⟩ := split_left hx h1'
      have hs0 : s0 = s := by
        have hm : Event.rom_select (some s) ∈ [Event.rom_select (some s0),
          Event.SetCurrentDirectory cd, Event.CopyFile s0 "doom64.rom" false] := mem_of_split hu2
        simp at hm
        exact hm.symm
      subst hs0
      obtain ⟨hu, hv⟩ := split_head (by simp) hu2
      subst hu
      refine ⟨cd, a, t, by simpa using hu1, ?_, ht⟩
      rw [h2, hv]; rfl
    · obtain ⟨cd', pre', post', hp1, hp2, hp3⟩ := ih h2
      exact ⟨cd', (a ++ [Event.GetCurrentDirectory cd, Event.rom_select (some s0),
        Event.SetCurrentDirectory cd, Event.CopyFile s0 "doom64.rom" false]) ++ pre', post',
        by simp [h1, hp1], hp2, hp3⟩
  | fatal_halt a ha =>
    have hm := mem_of_split h
    rcases List.mem_append.1 hm with hm | hm
    · exact absurd hm (failed_attempt_not_mem ha (by simp) (by simp))
    · simp at hm
  | fatal_break a ha =>
    have hm := mem_of_split h
    rcases List.mem_append.1 hm with hm | hm
    · exact absurd hm (failed_attempt_not_mem ha (by simp) (by simp))
    · simp at hm

/-- Every `wad::add_device` of the loop comes right after the search that
gave its path. -/
theorem loop_add_split {w : Bool} {L : List Event} {ex : LoopExit} (hs : LoopShape w L ex)
    {pre post : List Event} {p : String} {ok : Bool}
    (h : L = pre ++ Event.add_device p ok :: post) :
    ∃ pre', pre = pre' ++ [Event.find_data_file "doom64.rom" (some p)] := by
  have hfa : ∀ a, FailedAttempt a → ∀ pre v, a = pre ++ Event.add_device p ok :: v →
      pre = [Event.find_data_file "doom64.rom" (some p)] := by
    intro a ha pre v hv
    cases ha with
    | not_found => have := mem_of_split hv; simp at this
    | mount_failed p0 =>
      obtain ⟨u, hu1, hu2⟩ := split_left (A := [Event.find_data_file "doom64.rom" (some p0)])
        (B := [Event.add_device p0 false]) (by simp) hv
      have hm : Event.add_device p ok ∈ [Event.add_device p0 false] := mem_of_split hu2
      simp at hm
      obtain ⟨hp, hok⟩ := hm
      subst hp; subst hok
      obtain ⟨hu, _⟩ := split_head (by simp) hu2
      subst hu
      simpa using hu1
  have hblock : ∀ a, FailedAttempt a → ∀ b : List Event, Event.add_device p ok ∉ b →
      ∀ pre v, a ++ b = pre ++ Event.add_device p ok :: v →
      pre = [Event.find_data_file "doom64.rom" (some p)] := by
    intro a ha b hb pre v hv
    obtain ⟨v', hv1, _⟩ := split_right hb hv
    exact hfa a ha pre v' hv1
  induction hs generalizing pre with
  | fuel_out w => simp at h
  | loaded w p0 =>
    obtain ⟨u, hu1, hu2⟩ := split_left (A := [Event.find_data_file "doom64.rom" (some p0)])
      (B := [Event.add_device p0 true]) (by simp) h
    have hm : Event.add_device p ok ∈ [Event.add_device p0 true] := mem_of_split hu2
    simp at hm
    obtain ⟨hp, hok⟩ := hm
    subst hp; subst hok
    obtain ⟨hu, _⟩ := split_head (by simp) hu2
    subst hu
    exact ⟨[], by simpa using hu1⟩
  | cancel a cd ha => exact ⟨[], by simpa using hblock a ha _ (by simp) pre post h⟩
  | retry a cd s t ex ha _ ih =>
    rcases split_cases h with ⟨v, h1, _⟩ | ⟨u, h1, h2⟩
    · exact ⟨[], by simpa using hblock a ha _ (by simp) pre v h1⟩
    · obtain ⟨pre', hp⟩ := ih h2
      exact ⟨(a ++ [Event.GetCurrentDirectory cd, Event.rom_select (some s),
        Event.SetCurrentDirectory cd, Event.CopyFile s "doom64.rom" false]) ++ pre',
        by simp [h1, hp]⟩
  | fatal_halt a ha => exact ⟨[], by simpa using hblock a ha _ (by simp) pre post h⟩
  | fatal_break a ha => exact ⟨[], by simpa using hblock a ha _ (by simp) pre post h⟩

/-- What follows a search of `doom64.rom` in the loop. -/
theorem loop_find_split {w : Bool} {L : List Event} {ex : LoopExit} (hs : LoopShape w L ex)
    {pre post : List Event} {r : Option String}
    (h : L = pre ++ Event.find_data_file "doom64.rom" r :: post) :
    (∃ p, r = some p ∧ post = [Event.add_device p true] ∧ ex = LoopExit.loaded) ∨
    (∃ a' rest, FailedAttempt (Event.find_data_file "doom64.rom" r :: a') ∧ post = a' ++ rest ∧
      ((w = true ∧ ∃ cd r' rest', rest = Event.GetCurrentDirectory cd :: Event.rom_select r' ::
          Event.SetCurrentDirectory cd :: rest') ∨
       (w = false ∧ pre = [] ∧ rest = [Event.fatal "Couldn't find 'doom64.rom'"]))) := by
  have hfa : ∀ a, FailedAttempt a → ∀ b : List Event,
      Event.find_data_file "doom64.rom" r ∉ b →
      ∀ pre v, a ++ b = pre ++ Event.find_data_file "doom64.rom" r :: v →
      pre = [] ∧ ∃ a', FailedAttempt (Event.find_data_file "doom64.rom" r :: a') ∧
        v = a' ++ b := by
    intro a ha b hb pre v hv
    obtain ⟨v', hv1, hv2⟩ := split_right hb hv
    cases ha with
    | not_found =>
      have hm := mem_of_split hv1
      simp at hm
      subst hm
      obtain ⟨hu, hp⟩ := split_head (by simp) hv1
      subst hu; subst hp
      exact ⟨rfl, [], FailedAttempt.not_found, by simpa using hv2⟩
    | mount_failed p0 =>
      have hm := mem_of_split hv1
      simp at hm
      subst hm
      obtain ⟨hu, hp⟩ := split_head (by simp) hv1
      subst hu; subst hp
      exact ⟨rfl, [Event.add_device p0 false], FailedAttempt.mount_failed p0, by simpa using hv2⟩
  induction hs generalizing pre with
  | fuel_out w => simp at h
  | loaded w p0 =>
    left
    have hm := mem_of_split h
    simp at hm
    subst hm
    obtain ⟨_, hp⟩ := split_head (by simp) h
    exact ⟨p0, rfl, hp, rfl⟩
  | cancel a cd ha =>
    right
    obtain ⟨_, a', ha', hv⟩ := hfa a ha _ (by simp) pre post h
    exact ⟨a', _, ha', hv, Or.inl ⟨rfl, cd, none, _, rfl⟩⟩
  | retry a cd s t ex ha _ ih =>
    rcases split_cases h with ⟨v, h1, h2⟩ | ⟨u, h1, h2⟩
    · right
      obtain ⟨_, a', ha', hv⟩ := hfa a ha _ (by simp) pre v h1
      refine ⟨a', [Event.GetCurrentDirectory cd, Event.rom_select (some s),
        Event.SetCurrentDirectory cd, Event.CopyFile s "doom64.rom" false] ++ t, ha', ?_,
        Or.inl ⟨rfl, cd, some s, _, rfl⟩⟩
      rw [h2, hv, List.append_assoc]
    · rcases ih h2 with h3 | ⟨a', rest, ha', hp, h4 | ⟨hw, _⟩⟩
      · exact Or.inl h3
      · exact Or.inr ⟨a', rest, ha', hp, Or.inl h4⟩
      · simp at hw
  | fatal_halt a ha =>
    right
    obtain ⟨hp, a', ha', hv⟩ := hfa a ha _ (by simp) pre post h
    exact ⟨a', _, ha', hv, Or.inr ⟨rfl, hp, rfl⟩⟩
  | fatal_break a ha =>
    right
    obtain ⟨hp, a', ha', hv⟩ := hfa a ha _ (by simp) pre post h
    exact ⟨a', _, ha', hv, Or.inr ⟨rfl, hp, rfl⟩⟩

theorem failed_attempt_counts {a : List Event} (ha : FailedAttempt a) :
    count_find "doom64.rom" a = 1 ∧ count_picked a = 0 ∧ count_add_device a ≤ 1 := by
  cases ha <;> simp [count_find, count_picked, count_add_device]

theorem count_find_append (n : String) (s t : List Event) :
    count_find n (s ++ t) = count_find n s + count_find n t := by
  simp [count_find, List.countP_append]

theorem count_picked_append (s t : List Event) :
    count_picked (s ++ t) = count_picked s + count_picked t := by
  simp [count_picked, List.countP_append]

theorem count_add_device_append (s t : List Event) :
    count_add_device (s ++ t) = count_add_device s + count_add_device t := by
  simp [count_add_device, List.countP_append]

/-- With the file picker: one search per iteration, one picked path per
iteration that is followed by another one. -/
theorem loop_count_win32 {w : Bool} {L : List Event} {ex : LoopExit} (hs : LoopShape w L ex)
    (hw : w = true) :
    (ex ≠ LoopExit.running → count_find "doom64.rom" L = count_picked L + 1) ∧
    (ex = LoopExit.running → count_find "doom64.rom" L = count_picked L) := by
  induction hs with
  | fuel_out w => simp [count_find, count_picked]
  | loaded w p => simp [count_find, count_picked]
  | cancel a cd ha =>
    obtain ⟨h1, h2, _⟩ := failed_attempt_counts ha
    rw [count_find_append, count_picked_append, h1, h2]
    simp [count_find, count_picked]
  | retry a cd s t ex ha _ ih =>
    obtain ⟨h1, h2, _⟩ := failed_attempt_counts ha
    obtain ⟨ih1, ih2⟩ := ih hw
    rw [count_find_append, count_picked_append, count_find_append, count_picked_append, h1, h2]
    constructor
    · intro hex
      rw [ih1 hex]
      simp [count_find, count_picked]
      omega
    · intro hex
      rw [ih2 hex]
      simp [count_find, count_picked]
  | fatal_halt a ha => simp at hw
  | fatal_break a ha => simp at hw

/-- Without the file picker: at most one iteration. -/
theorem loop_count_other {w : Bool} {L : List Event} {ex : LoopExit} (hs : LoopShape w L ex)
    (hw : w = false) (hex : ex ≠ LoopExit.running) :
    count_find "doom64.rom" L = 1 ∧ count_add_device L ≤ 1 ∧ count_picked L = 0 := by
  cases hs with
  | fuel_out w => simp at hex
  | loaded w p => simp [count_find, count_picked, count_add_device]
  | cancel a cd ha => simp at hw
  | retry a cd s t ex ha _ => simp at hw
  | fatal_halt a ha =>
    obtain ⟨h1, h2, h3⟩ := failed_attempt_counts ha
    rw [count_find_append, count_picked_append, count_add_device_append, h1, h2]
    have h4 : count_add_device [Event.fatal "Couldn't find 'doom64.rom'"] = 0 := by
      simp [count_add_device]
    rw [h4]
    simp [count_find, count_picked, h3]
  | fatal_break a ha =>
    obtain ⟨h1, h2, h3⟩ := failed_attempt_counts ha
    rw [count_find_append, count_picked_append, count_add_device_append, h1, h2]
    have h4 : count_add_device [Event.fatal "Couldn't find 'doom64.rom'"] = 0 := by
      simp [count_add_device]
    rw [h4]
    simp [count_find, count_picked, h3]

/-- Without the file picker one unit of fuel is enough. -/
theorem iwad_loop_other (env : Env) (n : Nat) (h : List Event) :
    iwad_loop false env (n + 1) h = iwad_loop false env 1 h ∧
    (iwad_loop false env (n + 1) h).2 ≠ LoopExit.running := by
  rcases find_and_add_cases env h with ⟨p, hp⟩ | ⟨h2, _⟩
  · have hl : (find_and_add env h).2 = true := by rw [hp]
    rw [iwad_loop_loaded false env n h hl, iwad_loop_loaded false env 0 h hl]
    simp
  · rw [iwad_loop_fatal env n h h2, iwad_loop_fatal env 0 h h2]
    refine ⟨rfl, ?_⟩
    split <;> simp

theorem find_and_add_head (env : Env) (h : List Event) :
    ∃ r rest, (find_and_add env h).1 = Event.find_data_file "doom64.rom" r :: rest := by
  unfold find_and_add
  cases env.find_data_file h "doom64.rom" with
  | none => exact ⟨_, _, rfl⟩
  | some p => exact ⟨_, _, rfl⟩

/-- With fuel the loop starts with a search of `doom64.rom`. -/
theorem iwad_loop_succ_head (win32 : Bool) (env : Env) (n : Nat) (h : List Event) :
    ∃ r rest, (iwad_loop win32 env (n + 1) h).1 =
      Event.find_data_file "doom64.rom" r :: rest := by
  rcases loop_head (iwad_loop_shape win32 env (n + 1) h) with ⟨h1, _⟩ | h1
  · exfalso
    obtain ⟨r, rest, hr⟩ := find_and_add_head env h
    rcases find_and_add_cases env h with ⟨p, hp⟩ | ⟨h2, _⟩
    · rw [iwad_loop_loaded win32 env n h (by rw [hp]), hr] at h1
      simp at h1
    · cases win32
      · rw [iwad_loop_fatal env n h h2, hr] at h1
        simp at h1
      · cases hs : env.rom_select (h ++ ((find_and_add env h).1 ++
          [Event.GetCurrentDirectory (env.GetCurrentDirectory (h ++ (find_and_add env h).1))])) with
        | none => rw [iwad_loop_cancel env n h h2 hs, hr] at h1; simp at h1
        | some s => rw [iwad_loop_retry env n h s h2 hs, hr] at h1; simp at h1
  · exact h1

/-- A loop that ran out of fuel goes on with a search of `doom64.rom` when it
is given one more unit. -/
theorem iwad_loop_extend (win32 : Bool) (env : Env) (n : Nat) (h : List Event)
    (hr : (iwad_loop win32 env n h).2 = LoopExit.running) :
    ∃ r rest, (iwad_loop win32 env (n + 1) h).1 =
      (iwad_loop win32 env n h).1 ++ Event.find_data_file "doom64.rom" r :: rest := by
  induction n generalizing h with
  | zero =>
    obtain ⟨r, rest, h1⟩ := iwad_loop_succ_head win32 env 0 h
    exact ⟨r, rest, by rw [h1]; rfl⟩
  | succ n ih =>
    rcases find_and_add_cases env h with ⟨p, hp⟩ | ⟨h2, _⟩
    · rw [iwad_loop_loaded win32 env n h (by rw [hp])] at hr
      simp at hr
    · cases win32
      · exact absurd hr (iwad_loop_other env n h).2
      · cases hs : env.rom_select (h ++ ((find_and_add env h).1 ++
          [Event.GetCurrentDirectory (env.GetCurrentDirectory (h ++ (find_and_add env h).1))])) with
        | none => rw [iwad_loop_cancel env n h h2 hs] at hr; simp at hr
        | some s =>
          rw [iwad_loop_retry env n h s h2 hs] at hr
          obtain ⟨r, rest, h1⟩ := ih _ hr
          refine ⟨r, rest, ?_⟩
          rw [iwad_loop_retry env (n + 1) h s h2 hs, iwad_loop_retry env n h s h2 hs]
          simp only [h1, List.append_assoc]

theorem tail_events {env : Env} {h : List Event} {ex : LoopExit} {T : List Event} {o : Outcome}
    (ht : TailShape env h ex T o) : ∀ e ∈ T, TailEvent e := by
  cases ht <;> simp [TailEvent]

theorem tail_not_mem {env : Env} {h : List Event} {ex : LoopExit} {T : List Event} {o : Outcome}
    (ht : TailShape env h ex T o) {e : Event} (he : ¬ TailEvent e) : e ∉ T :=
  fun hm => he (tail_events ht e hm)

theorem tail_of_exited {env : Env} {h : List Event} {st : Int} {T : List Event} {o : Outcome}
    (ht : TailShape env h (LoopExit.exited st) T o) : T = [] ∧ o = Outcome.exited st := by
  cases ht with
  | mounted _ q ok hex => simp at hex
  | fatal_returned _ hex _ => simp at hex
  | fatal_halted _ hex _ => simp at hex
  | exited _ => exact ⟨rfl, rfl⟩

theorem tail_of_halted {env : Env} {h : List Event} {T : List Event} {o : Outcome}
    (ht : TailShape env h LoopExit.halted T o) : T = [] ∧ o = Outcome.halted := by
  cases ht with
  | mounted _ q ok hex => simp at hex
  | fatal_returned _ hex _ => simp at hex
  | fatal_halted _ hex _ => simp at hex
  | halted => exact ⟨rfl, rfl⟩

theorem tail_of_running {env : Env} {h : List Event} {T : List Event} {o : Outcome}
    (ht : TailShape env h LoopExit.running T o) : T = [] ∧ o = Outcome.running := by
  cases ht with
  | mounted _ q ok hex => simp at hex
  | fatal_returned _ hex _ => simp at hex
  | fatal_halted _ hex _ => simp at hex
  | running => exact ⟨rfl, rfl⟩

/-- An action of `loaders ++ L ++ T` that is not in `loaders` is in `L` or in `T`. -/
theorem split_in_shape {A L T pre post : List Event} {x : Event} (hx : x ∉ A)
    (h : A ++ L ++ T = pre ++ x :: post) :
    (∃ u v, L = u ++ x :: v ∧ pre = A ++ u ∧ post = v ++ T) ∨
    (∃ u, T = u ++ x :: post ∧ pre = A ++ L ++ u) := by
  rw [List.append_assoc] at h
  obtain ⟨u, hu1, hu2⟩ := split_left hx h
  rcases split_cases hu2 with ⟨v, h1, h2⟩ | ⟨u', h1, h2⟩
  · exact Or.inl ⟨u, v, h1, hu1, h2⟩
  · exact Or.inr ⟨u', h2, by rw [hu1, h1, List.append_assoc]⟩

/-- An action of a run that is not a loader registration belongs to the loop
or to lines 51-58. -/
theorem init_split (win32 : Bool) (env : Env) (fuel : Nat) {x : Event} {pre post : List Event}
    (hx : x ∉ add_device_loaders) (h : (init win32 env fuel).trace = pre ++ x :: post) :
    ∃ L ex T, iwad_loop win32 env fuel add_device_loaders = (L, ex) ∧
      (init win32 env fuel).trace = add_device_loaders ++ L ++ T ∧
      LoopShape win32 L ex ∧
      TailShape env (add_device_loaders ++ L) ex T (init win32 env fuel).outcome ∧
      ((∃ u v, L = u ++ x :: v ∧ pre = add_device_loaders ++ u ∧ post = v ++ T) ∨
       (∃ u, T = u ++ x :: post ∧ pre = add_device_loaders ++ L ++ u)) := by
  obtain ⟨L, ex, T, hl, htr, hs, ht⟩ := init_shape win32 env fuel
  refine ⟨L, ex, T, hl, htr, hs, ht, ?_⟩
  rw [htr] at h
  exact split_in_shape hx h

/-- An action of a run that only the loop performs belongs to the loop. -/
theorem init_split_loop (win32 : Bool) (env : Env) (fuel : Nat) {x : Event}
    {pre post : List Event} (hx : x ∉ add_device_loaders) (hx' : ¬ TailEvent x)
    (h : (init win32 env fuel).trace = pre ++ x :: post) :
    ∃ L ex T u v, iwad_loop win32 env fuel add_device_loaders = (L, ex) ∧
      (init win32 env fuel).trace = add_device_loaders ++ L ++ T ∧
      LoopShape win32 L ex ∧
      TailShape env (add_device_loaders ++ L) ex T (init win32 env fuel).outcome ∧
      L = u ++ x :: v ∧ pre = add_device_loaders ++ u ∧ post = v ++ T := by
  obtain ⟨L, ex, T, hl, htr, hs, ht, ⟨u, v, h1, h2, h3⟩ | ⟨u, h1, _⟩⟩ :=
    init_split win32 env fuel hx h
  · exact ⟨L, ex, T, u, v, hl, htr, hs, ht, h1, h2, h3⟩
  · exact absurd (mem_of_split h1) (tail_not_mem ht hx')

/-- A run that ran out of fuel goes on with a search of `doom64.rom`. -/
theorem init_extend (win32 : Bool) (env : Env) (fuel : Nat)
    (hr : (init win32 env fuel).outcome = Outcome.running) :
    ∃ r rest, (init win32 env (fuel + 1)).trace =
      (init win32 env fuel).trace ++ Event.find_data_file "doom64.rom" r :: rest := by
  obtain ⟨L, ex, T, hl, htr, _, ht⟩ := init_shape win32 env fuel
  obtain ⟨L', ex', T', hl', htr', _, _⟩ := init_shape win32 env (fuel + 1)
  have hex : ex = LoopExit.running := by
    generalize (init win32 env fuel).outcome = o at hr ht
    subst hr
    cases ht with
    | running => rfl
  subst hex
  obtain ⟨hT, _⟩ := tail_of_running ht
  subst hT
  obtain ⟨r, rest, he⟩ := iwad_loop_extend win32 env fuel add_device_loaders (by rw [hl])
  rw [hl, hl'] at he
  simp only at he
  exact ⟨r, rest ++ T', by rw [htr', htr, he]; simp⟩

/-- When `log::fatal` never returns, the loop is not left through `break`. -/
theorem iwad_loop_not_broke (win32 : Bool) (env : Env)
    (hf : ∀ h m, env.fatal_returns h m = false) (n : Nat) (h : List Event) :
    (iwad_loop win32 env n h).2 ≠ LoopExit.broke := by
  induction n generalizing h with
  | zero => simp [iwad_loop]
  | succ n ih =>
    rcases find_and_add_cases env h with ⟨p, hp⟩ | ⟨h2, _⟩
    · rw [iwad_loop_loaded win32 env n h (by rw [hp])]
      simp
    · cases win32
      · rw [iwad_loop_fatal env n h h2, hf]
        simp
      · cases hs : env.rom_select (h ++ ((find_and_add env h).1 ++
          [Event.GetCurrentDirectory (env.GetCurrentDirectory (h ++ (find_and_add env h).1))])) with
        | none => rw [iwad_loop_cancel env n h h2 hs]; simp
        | some s =>
          rw [iwad_loop_retry env n h s h2 hs]
          exact ih _

/-- What the code guarantees about `wad::merge`: it is called at most once,
as the last action of a run that returns. -/
theorem merge_is_last_action (win32 : Bool) (env : Env) (fuel : Nat)
    (hm : Event.merge ∈ (init win32 env fuel).trace) :
    (init win32 env fuel).outcome = Outcome.returned ∧
    ∃ t, (init win32 env fuel).trace = t ++ [Event.merge] ∧ Event.merge ∉ t := by
  obtain ⟨L, ex, T, _, htr, hs, ht⟩ := init_shape win32 env fuel
  have hL : Event.merge ∉ add_device_loaders ++ L := by
    intro hmem
    rcases List.mem_append.1 hmem with hmem | hmem
    · simp [add_device_loaders] at hmem
    · exact loop_not_mem hs (by simp [LoopEvent]) hmem
  have hT : Event.merge ∈ T := by
    rw [htr] at hm
    rcases List.mem_append.1 hm with hmem | hmem
    · exact absurd hmem hL
    · exact hmem
  rw [htr]
  generalize (init win32 env fuel).outcome = o at ht
  cases ht with
  | mounted _ q ok hex =>
    refine ⟨rfl, add_device_loaders ++ L ++ [Event.find_data_file "doom64ex.pk3" (some q),
      Event.add_device q ok], by simp, ?_⟩
    intro hmem
    rcases List.mem_append.1 hmem with hmem | hmem
    · exact hL hmem
    · simp at hmem
  | fatal_returned _ hex _ =>
    refine ⟨rfl, add_device_loaders ++ L ++ [Event.find_data_file "doom64ex.pk3" none,
      Event.fatal "Couldn't find 'doom64ex.pk3'"], by simp, ?_⟩
    intro hmem
    rcases List.mem_append.1 hmem with hmem | hmem
    · exact hL hmem
    · simp at hmem
  | fatal_halted _ hex _ => simp at hT
  | exited _ => simp at hT
  | halted => simp at hT
  | running => simp at hT

/-- What the code guarantees about `wad::merge` when `log::fatal` never
returns: it is called only right after the successful mount of the base
container, the successful search of `doom64ex.pk3` and the call of
`wad::add_device` on the path found, whatever that call returned. -/
theorem merge_after_base_mounted (win32 : Bool) (env : Env) (fuel : Nat)
    (hf : ∀ h m, env.fatal_returns h m = false)
    (hm : Event.merge ∈ (init win32 env fuel).trace) :
    ∃ pre p q ok, (init win32 env fuel).trace =
      pre ++ [Event.find_data_file "doom64.rom" (some p), Event.add_device p true,
        Event.find_data_file "doom64ex.pk3" (some q), Event.add_device q ok, Event.merge] := by
  obtain ⟨L, ex, T, hl, htr, hs, ht⟩ := init_shape win32 env fuel
  have hbroke : ex ≠ LoopExit.broke := by
    have := iwad_loop_not_broke win32 env hf fuel add_device_loaders
    rw [hl] at this
    exact this
  have hT : Event.merge ∈ T := by
    rw [htr] at hm
    rcases List.mem_append.1 hm with hmem | hmem
    · rcases List.mem_append.1 hmem with hmem | hmem
      · simp [add_device_loaders] at hmem
      · exact absurd hmem (loop_not_mem hs (by simp [LoopEvent]))
    · exact hmem
  rw [htr]
  generalize (init win32 env fuel).outcome = o at ht
  cases ht with
  | mounted _ q ok hex =>
    rcases hex with hex | hex
    · rcases loop_store hs with ⟨_, u, p, hu, _⟩ | ⟨hne, _⟩
      · exact ⟨add_device_loaders ++ u, p, q, ok, by simp [hu]⟩
      · exact absurd hex hne
    · exact absurd hex hbroke
  | fatal_returned _ hex hret => rw [hf] at hret; simp at hret
  | fatal_halted _ hex _ => simp at hT
  | exited _ => simp at hT
  | halted => simp at hT
  | running => simp at hT

/-! ## Mounted devices, registry and merge -/

theorem loader_registry_append (r0 : List Loader) (s t : List Event) :
    loader_registry r0 (s ++ t) = loader_registry (loader_registry r0 s) t := by
  simp [loader_registry, List.filterMap_append]

theorem loader_registry_of_no_loader (r0 : List Loader) (t : List Event)
    (h : ∀ l, Event.add_device_loader l ∉ t) : loader_registry r0 t = r0 := by
  induction t with
  | nil => simp [loader_registry]
  | cons e t ih =>
    have ht : ∀ l, Event.add_device_loader l ∉ t := fun l hm => h l (List.mem_cons_of_mem _ hm)
    have he : ∀ l, e ≠ Event.add_device_loader l := fun l heq => h l (by simp [heq])
    have ih' := ih ht
    unfold loader_registry at ih' ⊢
    cases e with
    | add_device_loader l => exact absurd rfl (he l)
    | _ => simpa using ih'

theorem loop_store_of_mem {w : Bool} {L : List Event} {ex : LoopExit} (hs : LoopShape w L ex)
    {p : String} (hm : Event.add_device p true ∈ L) :
    device_store L = [p] ∧ ex = LoopExit.loaded := by
  have hp := mem_device_store hm
  rcases loop_store hs with ⟨hex, _, p', _, hst⟩ | ⟨_, hst⟩
  · rw [hst] at hp
    simp at hp
    subst hp
    exact ⟨hst, hex⟩
  · rw [hst] at hp
    simp at hp

/-- Every `wad::add_device` of lines 51-58 comes right after the search that
gave its path, and is followed by `wad::merge` only. -/
theorem tail_add_split {env : Env} {h : List Event} {ex : LoopExit} {T : List Event}
    {o : Outcome} (ht : TailShape env h ex T o) {u post : List Event} {p : String} {ok : Bool}
    (hsplit : T = u ++ Event.add_device p ok :: post) :
    u = [Event.find_data_file "doom64ex.pk3" (some p)] ∧ post = [Event.merge] ∧
      o = Outcome.returned := by
  cases ht with
  | mounted _ q ok' hex =>
    obtain ⟨u', hu1, hu2⟩ := split_left (A := [Event.find_data_file "doom64ex.pk3" (some q)])
      (B := [Event.add_device q ok', Event.merge]) (by simp) hsplit
    have hm : Event.add_device p ok ∈ [Event.add_device q ok', Event.merge] := mem_of_split hu2
    simp at hm
    obtain ⟨hp, hok⟩ := hm
    subst hp; subst hok
    obtain ⟨hu, hpost⟩ := split_head (by simp) hu2
    subst hu
    exact ⟨by simpa using hu1, hpost, rfl⟩
  | fatal_returned _ hex _ => have := mem_of_split hsplit; simp at this
  | fatal_halted _ hex _ => have := mem_of_split hsplit; simp at this
  | exited _ => simp at hsplit
  | halted => simp at hsplit
  | running => simp at hsplit

theorem merge_device_cons (ns : Namespace) (idx : Nat) (e : String × Nat)
    (es : List (String × Nat)) :
    merge_device ns idx (e :: es) =
      merge_device (fun n => if n = e.1 then some (idx, e.2) else ns n) idx es := by
  simp [merge_device]

theorem merge_device_not_mem (ns : Namespace) (idx : Nat) (es : List (String × Nat))
    (n : String) (hn : ∀ loc, (n, loc) ∉ es) : merge_device ns idx es n = ns n := by
  induction es generalizing ns with
  | nil => rfl
  | cons e es ih =>
    rw [merge_device_cons, ih _ (fun loc hm => hn loc (List.mem_cons_of_mem _ hm))]
    have hne : n ≠ e.1 := by
      intro heq
      exact hn e.2 (by rw [heq]; exact List.mem_cons_self _ _)
    simp [hne]

/-- An insertion of a device's entries makes the device the owner of every
name it holds. -/
theorem merge_device_mem (ns : Namespace) (idx : Nat) (es : List (String × Nat))
    (n : String) (hn : ∃ loc, (n, loc) ∈ es) :
    ∃ loc, (n, loc) ∈ es ∧ merge_device ns idx es n = some (idx, loc) := by
  induction es generalizing ns with
  | nil => obtain ⟨loc, hl⟩ := hn; simp at hl
  | cons e es ih =>
    rw [merge_device_cons]
    by_cases hes : ∃ loc, (n, loc) ∈ es
    · obtain ⟨loc, hl, hr⟩ := ih _ hes
      exact ⟨loc, List.mem_cons_of_mem _ hl, hr⟩
    · obtain ⟨loc, hl⟩ := hn
      have he : (n, loc) = e := by
        rcases List.mem_cons.1 hl with h | h
        · exact h
        · exact absurd ⟨loc, h⟩ hes
      refine ⟨loc, hl, ?_⟩
      rw [merge_device_not_mem _ idx es n (fun loc' hm => hes ⟨loc', hm⟩), ← he]
      simp

/-! # The claims -/

/-- C1: the run in which both containers are found, the base container is
mounted and `wad::add_device` fails for `doom64ex.pk3`: the failure is not
looked at and `wad::merge` is called all the same, on either platform. -/
theorem C1_merge_after_failed_supplemental_mount :
    init false env_engine_data_unreadable 1 =
      ⟨[Event.add_device_loader Loader.zip_loader, Event.add_device_loader Loader.doom_loader,
        Event.add_device_loader Loader.rom_loader,
        Event.find_data_file "doom64.rom" (some "/usr/share/doom64ex/doom64.rom"),
        Event.add_device "/usr/share/doom64ex/doom64.rom" true,
        Event.find_data_file "doom64ex.pk3" (some "/usr/share/doom64ex/doom64ex.pk3"),
        Event.add_device "/usr/share/doom64ex/doom64ex.pk3" false,
        Event.merge], Outcome.returned⟩ ∧
    init true env_engine_data_unreadable 1 = init false env_engine_data_unreadable 1 ∧
    device_store (init false env_engine_data_unreadable 1).trace =
      ["/usr/share/doom64ex/doom64.rom"] := by
  decide

/-- C2: without the file picker (`win32 = false`), when the first
`find_data_file("doom64.rom")` gives none and the call of `log::fatal` that
follows halts the process, the run is the three loader registrations, that
search and `log::fatal("Couldn't find 'doom64.rom'")`, and it ends halted:
`doom64ex.pk3` is not looked for, `wad::add_device` and `wad::merge` are not
called. -/
theorem C2_missing_base_is_fatal (env : Env) (fuel : Nat)
    (hfind : env.find_data_file [Event.add_device_loader Loader.zip_loader,
      Event.add_device_loader Loader.doom_loader,
      Event.add_device_loader Loader.rom_loader] "doom64.rom" = none)
    (hfatal : env.fatal_returns [Event.add_device_loader Loader.zip_loader,
      Event.add_device_loader Loader.doom_loader, Event.add_device_loader Loader.rom_loader,
      Event.find_data_file "doom64.rom" none] "Couldn't find 'doom64.rom'" = false) :
    init false env (fuel + 1) =
      ⟨[Event.add_device_loader Loader.zip_loader, Event.add_device_loader Loader.doom_loader,
        Event.add_device_loader Loader.rom_loader, Event.find_data_file "doom64.rom" none,
        Event.fatal "Couldn't find 'doom64.rom'"], Outcome.halted⟩ ∧
    (∀ r, Event.find_data_file "doom64ex.pk3" r ∉ (init false env (fuel + 1)).trace) ∧
    (∀ p ok, Event.add_device p ok ∉ (init false env (fuel + 1)).trace) ∧
    Event.merge ∉ (init false env (fuel + 1)).trace := by
  have hfa : find_and_add env add_device_loaders =
      ([Event.find_data_file "doom64.rom" none], false) := by
    simp [find_and_add, add_device_loaders, hfind]
  have hloop : iwad_loop false env (fuel + 1) add_device_loaders =
      ([Event.find_data_file "doom64.rom" none, Event.fatal "Couldn't find 'doom64.rom'"],
        LoopExit.halted) := by
    rw [iwad_loop_fatal env fuel _ (by rw [hfa]), hfa]
    simp [add_device_loaders, hfatal]
  have hinit : init false env (fuel + 1) =
      ⟨[Event.add_device_loader Loader.zip_loader, Event.add_device_loader Loader.doom_loader,
        Event.add_device_loader Loader.rom_loader, Event.find_data_file "doom64.rom" none,
        Event.fatal "Couldn't find 'doom64.rom'"], Outcome.halted⟩ := by
    simp only [init, hloop]
    simp [add_device_loaders]
  rw [hinit]
  simp

theorem C2_missing_base_is_fatal_witness :
    env_nothing_found.find_data_file [Event.add_device_loader Loader.zip_loader,
      Event.add_device_loader Loader.doom_loader,
      Event.add_device_loader Loader.rom_loader] "doom64.rom" = none ∧
    init false env_nothing_found 1 =
      ⟨[Event.add_device_loader Loader.zip_loader, Event.add_device_loader Loader.doom_loader,
        Event.add_device_loader Loader.rom_loader, Event.find_data_file "doom64.rom" none,
        Event.fatal "Couldn't find 'doom64.rom'"], Outcome.halted⟩ :=
  ⟨rfl, (C2_missing_base_is_fatal env_nothing_found 0 rfl rfl).1⟩

/-- C3: on every platform, when the base container was found and mounted and
`find_data_file("doom64ex.pk3")` gives none, and that call of `log::fatal`
halts the process, the only action that follows is
`log::fatal("Couldn't find 'doom64ex.pk3'")`: the run ends halted, the file
picker is not called for the supplemental container, the base container stays
the only mounted device, and `wad::merge` is not called. -/
theorem C3_missing_supplemental_is_fatal (win32 : Bool) (env : Env) (fuel : Nat)
    (pre post : List Event) (p : String)
    (h : (init win32 env fuel).trace = pre ++ Event.find_data_file "doom64.rom" (some p) ::
      Event.add_device p true :: Event.find_data_file "doom64ex.pk3" none :: post)
    (hf : env.fatal_returns (pre ++ [Event.find_data_file "doom64.rom" (some p),
      Event.add_device p true, Event.find_data_file "doom64ex.pk3" none])
      "Couldn't find 'doom64ex.pk3'" = false) :
    post = [Event.fatal "Couldn't find 'doom64ex.pk3'"] ∧
    (init win32 env fuel).outcome = Outcome.halted ∧
    (∀ r, Event.rom_select r ∉ post) ∧
    device_store (init win32 env fuel).trace = [p] ∧
    Event.merge ∉ (init win32 env fuel).trace := by
  have h' : (init win32 env fuel).trace = (pre ++ [Event.find_data_file "doom64.rom" (some p),
      Event.add_device p true]) ++ Event.find_data_file "doom64ex.pk3" none :: post := by
    simpa using h
  obtain ⟨L, ex, T, _, htr, hs, ht, ⟨u, v, h1, _, _⟩ | ⟨u, h1, h2⟩⟩ :=
    init_split win32 env fuel (by simp [add_device_loaders]) h'
  · exact absurd (mem_of_split h1) (loop_not_mem hs (by simp [LoopEvent]))
  · have hmemL : Event.add_device p true ∈ L := by
      have hm : Event.add_device p true ∈ add_device_loaders ++ L ++ u := by
        rw [← h2]; simp
      rcases List.mem_append.1 hm with hm | hm
      · rcases List.mem_append.1 hm with hm | hm
        · simp [add_device_loaders] at hm
        · exact hm
      · exfalso
        have hsplit : T = u ++ Event.find_data_file "doom64ex.pk3" none :: post := h1
        generalize (init win32 env fuel).outcome = o at ht
        cases ht with
        | mounted _ q ok hex => have := mem_of_split hsplit; simp at this
        | fatal_returned _ hex _ =>
          obtain ⟨hu, _⟩ := split_head (by simp) hsplit
          subst hu; simp at hm
        | fatal_halted _ hex _ =>
          obtain ⟨hu, _⟩ := split_head (by simp) hsplit
          subst hu; simp at hm
        | exited _ => simp at hsplit
        | halted => simp at hsplit
        | running => simp at hsplit
    obtain ⟨hst, _⟩ := loop_store_of_mem hs hmemL
    have key : u = [] ∧ post = [Event.fatal "Couldn't find 'doom64ex.pk3'"] ∧
        T = [Event.find_data_file "doom64ex.pk3" none,
          Event.fatal "Couldn't find 'doom64ex.pk3'"] ∧
        (init win32 env fuel).outcome = Outcome.halted := by
      generalize (init win32 env fuel).outcome = o at ht
      cases ht with
      | mounted _ q ok hex => have := mem_of_split h1; simp at this
      | fatal_returned _ hex hret =>
        obtain ⟨hu, _⟩ := split_head (by simp) h1
        subst hu
        rw [List.append_nil] at h2
        rw [← h2] at hret
        simp at hret hf
        rw [hf] at hret
        simp at hret
      | fatal_halted _ hex _ =>
        obtain ⟨hu, hpost⟩ := split_head (by simp) h1
        exact ⟨hu, hpost, rfl, rfl⟩
      | exited _ => simp at h1
      | halted => simp at h1
      | running => simp at h1
    obtain ⟨_, hpost, hT, ho⟩ := key
    refine ⟨hpost, ho, by intro r; simp [hpost], ?_, ?_⟩
    · rw [htr, device_store_append, device_store_append, hst, hT]
      simp [device_store, add_device_loaders]
    · rw [htr, hT]
      intro hm
      rcases List.mem_append.1 hm with hm | hm
      · rcases List.mem_append.1 hm with hm | hm
        · simp [add_device_loaders] at hm
        · exact loop_not_mem hs (by simp [LoopEvent]) hm
      · simp at hm

theorem C3_missing_supplemental_is_fatal_witness :
    ∃ pre post, (init true env_no_engine_data 1).trace =
        pre ++ Event.find_data_file "doom64.rom" (some "/usr/share/doom64ex/doom64.rom") ::
          Event.add_device "/usr/share/doom64ex/doom64.rom" true ::
          Event.find_data_file "doom64ex.pk3" none :: post ∧
      post = [Event.fatal "Couldn't find 'doom64ex.pk3'"] ∧
      (init true env_no_engine_data 1).outcome = Outcome.halted ∧
      device_store (init true env_no_engine_data 1).trace =
        ["/usr/share/doom64ex/doom64.rom"] := by
  have h : (init true env_no_engine_data 1).trace =
      [Event.add_device_loader Loader.zip_loader, Event.add_device_loader Loader.doom_loader,
        Event.add_device_loader Loader.rom_loader] ++
      Event.find_data_file "doom64.rom" (some "/usr/share/doom64ex/doom64.rom") ::
      Event.add_device "/usr/share/doom64ex/doom64.rom" true ::
      Event.find_data_file "doom64ex.pk3" none ::
      [Event.fatal "Couldn't find 'doom64ex.pk3'"] := by decide
  have hc := C3_missing_supplemental_is_fatal true env_no_engine_data 1 _ _ _ h rfl
  exact ⟨_, _, h, hc.1, hc.2.1, hc.2.2.2.1⟩

/-- C4: on a platform with the file picker (`win32 = true`), whenever the
picker returns none, the actions that follow are the restoration of the working
directory and `std::exit(0)`, which end the run with exit status 0; nothing is
copied after the cancel, and in the whole run `log::fatal` is not called,
`doom64ex.pk3` is not looked for, no device is mounted and `wad::merge` is
not called. -/
theorem C4_cancel_exits_zero (env : Env) (fuel : Nat) (pre post : List Event)
    (h : (init true env fuel).trace = pre ++ Event.rom_select none :: post) :
    (∃ cd pre', pre = pre' ++ [Event.GetCurrentDirectory cd] ∧
      post = [Event.SetCurrentDirectory cd, Event.exit 0]) ∧
    (init true env fuel).outcome = Outcome.exited 0 ∧
    (∀ src dst b, Event.CopyFile src dst b ∉ post) ∧
    (∀ m, Event.fatal m ∉ (init true env fuel).trace) ∧
    (∀ r, Event.find_data_file "doom64ex.pk3" r ∉ (init true env fuel).trace) ∧
    (∀ p, Event.add_device p true ∉ (init true env fuel).trace) ∧
    Event.merge ∉ (init true env fuel).trace := by
  obtain ⟨L, ex, T, u, v, _, htr, hs, ht, h1, h2, h3⟩ :=
    init_split_loop true env fuel (by simp [add_device_loaders]) (by simp [TailEvent]) h
  obtain ⟨hex, cd, pre', hp1, hp2⟩ := loop_cancel_split hs h1
  subst hex
  obtain ⟨hT, ho⟩ := tail_of_exited ht
  subst hT
  have hpost : post = [Event.SetCurrentDirectory cd, Event.exit 0] := by simp [h3, hp2]
  have hmem : ∀ e, e ∈ (init true env fuel).trace → e ∈ add_device_loaders ∨ e ∈ L := by
    intro e he
    rw [htr] at he
    simpa using he
  refine ⟨⟨cd, add_device_loaders ++ pre', by simp [h2, hp1], hpost⟩, ho, ?_, ?_, ?_, ?_, ?_⟩
  · intro src dst b; simp [hpost]
  · intro m hm
    rcases hmem _ hm with hm | hm
    · simp [add_device_loaders] at hm
    · exact loop_win32_no_fatal hs rfl m hm
  · intro r hm
    rcases hmem _ hm with hm | hm
    · simp [add_device_loaders] at hm
    · exact loop_not_mem hs (by simp [LoopEvent]) hm
  · intro p hm
    rcases hmem _ hm with hm | hm
    · simp [add_device_loaders] at hm
    · rcases loop_store hs with ⟨hex, _⟩ | ⟨_, hst⟩
      · simp at hex
      · have := mem_device_store hm
        rw [hst] at this
        simp at this
  · intro hm
    rcases hmem _ hm with hm | hm
    · simp [add_device_loaders] at hm
    · exact loop_not_mem hs (by simp [LoopEvent]) hm

theorem C4_cancel_exits_zero_witness :
    ∃ pre post, (init true env_pick_then_cancel 2).trace = pre ++ Event.rom_select none :: post ∧
      Event.CopyFile "D:/roms/doom64.z64" "doom64.rom" false ∈ pre ∧
      post = [Event.SetCurrentDirectory "C:/Doom64EX", Event.exit 0] ∧
      (init true env_pick_then_cancel 2).outcome = Outcome.exited 0 := by
  have h : (init true env_pick_then_cancel 2).trace =
      [Event.add_device_loader Loader.zip_loader, Event.add_device_loader Loader.doom_loader,
        Event.add_device_loader Loader.rom_loader,
        Event.find_data_file "doom64.rom" (some "C:/Doom64EX/doom64.rom"),
        Event.add_device "C:/Doom64EX/doom64.rom" false,
        Event.GetCurrentDirectory "C:/Doom64EX",
        Event.rom_select (some "D:/roms/doom64.z64"),
        Event.SetCurrentDirectory "C:/Doom64EX",
        Event.CopyFile "D:/roms/doom64.z64" "doom64.rom" false,
        Event.find_data_file "doom64.rom" (some "C:/Doom64EX/doom64.rom"),
        Event.add_device "C:/Doom64EX/doom64.rom" false,
        Event.GetCurrentDirectory "C:/Doom64EX"] ++
      Event.rom_select none :: [Event.SetCurrentDirectory "C:/Doom64EX", Event.exit 0] := by
    decide
  exact ⟨_, _, h, by decide, rfl, (C4_cancel_exits_zero env_pick_then_cancel 2 _ _ h).2.1⟩

/-- C5: on a platform with the file picker (`win32 = true`), whenever the
picker returns a path `s`, the action before the picker read the working
directory `cd`, and the actions after it are `SetCurrentDirectory(cd)`, then
`CopyFile(s, "doom64.rom", FALSE)` (an existing file is overwritten), then
another `find_data_file("doom64.rom")`; when the fuel of the run ends right
after the copy, the run with one more iteration goes on with that search. -/
theorem C5_pick_copies_and_searches_again (env : Env) (fuel : Nat) (pre post : List Event)
    (s : String)
    (h : (init true env fuel).trace = pre ++ Event.rom_select (some s) :: post) :
    ∃ cd pre' post', pre = pre' ++ [Event.GetCurrentDirectory cd] ∧
      post = Event.SetCurrentDirectory cd :: Event.CopyFile s "doom64.rom" false :: post' ∧
      ((∃ r post'', post' = Event.find_data_file "doom64.rom" r :: post'') ∨
       (post' = [] ∧ (init true env fuel).outcome = Outcome.running ∧
        ∃ r rest, (init true env (fuel + 1)).trace =
          (init true env fuel).trace ++ Event.find_data_file "doom64.rom" r :: rest)) := by
  obtain ⟨L, ex, T, u, v, _, _, hs, ht, h1, h2, h3⟩ :=
    init_split_loop true env fuel (by simp [add_device_loaders]) (by simp [TailEvent]) h
  obtain ⟨cd, pre', post', hp1, hp2, hp3⟩ := loop_pick_split hs h1
  refine ⟨cd, add_device_loaders ++ pre', post' ++ T, by simp [h2, hp1], by simp [h3, hp2], ?_⟩
  rcases loop_head hp3 with ⟨hnil, hex⟩ | ⟨r, rest, hr⟩
  · right
    subst hex
    obtain ⟨hT, ho⟩ := tail_of_running ht
    exact ⟨by simp [hnil, hT], ho, init_extend true env fuel ho⟩
  · left
    exact ⟨r, rest ++ T, by simp [hr]⟩

theorem C5_pick_copies_and_searches_again_witness :
    ∃ pre post, (init true env_pick_then_cancel 2).trace =
        pre ++ Event.rom_select (some "D:/roms/doom64.z64") :: post ∧
      ∃ cd pre' post', pre = pre' ++ [Event.GetCurrentDirectory cd] ∧
        post = Event.SetCurrentDirectory cd ::
          Event.CopyFile "D:/roms/doom64.z64" "doom64.rom" false :: post' ∧
        ((∃ r post'', post' = Event.find_data_file "doom64.rom" r :: post'') ∨
         (post' = [] ∧ (init true env_pick_then_cancel 2).outcome = Outcome.running ∧
          ∃ r rest, (init true env_pick_then_cancel (2 + 1)).trace =
            (init true env_pick_then_cancel 2).trace ++
              Event.find_data_file "doom64.rom" r :: rest)) := by
  have h : (init true env_pick_then_cancel 2).trace =
      [Event.add_device_loader Loader.zip_loader, Event.add_device_loader Loader.doom_loader,
        Event.add_device_loader Loader.rom_loader,
        Event.find_data_file "doom64.rom" (some "C:/Doom64EX/doom64.rom"),
        Event.add_device "C:/Doom64EX/doom64.rom" false,
        Event.GetCurrentDirectory "C:/Doom64EX"] ++
      Event.rom_select (some "D:/roms/doom64.z64") ::
      [Event.SetCurrentDirectory "C:/Doom64EX",
        Event.CopyFile "D:/roms/doom64.z64" "doom64.rom" false,
        Event.find_data_file "doom64.rom" (some "C:/Doom64EX/doom64.rom"),
        Event.add_device "C:/Doom64EX/doom64.rom" false,
        Event.GetCurrentDirectory "C:/Doom64EX",
        Event.rom_select none, Event.SetCurrentDirectory "C:/Doom64EX", Event.exit 0] := by
    decide
  exact ⟨_, _, h, C5_pick_copies_and_searches_again env_pick_then_cancel 2 _ _ _ h⟩

/-- C6: in a run in which the path found for `doom64.rom` and the path found
for `doom64ex.pk3` are both mounted, the search of `doom64ex.pk3` comes right
after the mount of the base container, `wad::merge` follows the mount of the
supplemental container, the Device Store holds the base container and then
the supplemental container and nothing else, and the merge of that store
resolves every name the supplemental container holds to an entry of the
supplemental container (the device at position 1). -/
theorem C6_base_before_supplemental (win32 : Bool) (env : Env) (fuel : Nat) (p q : String)
    (pre1 post1 pre2 post2 : List Event)
    (h1 : (init win32 env fuel).trace = pre1 ++ Event.find_data_file "doom64.rom" (some p) ::
      Event.add_device p true :: post1)
    (h2 : (init win32 env fuel).trace = pre2 ++ Event.find_data_file "doom64ex.pk3" (some q) ::
      Event.add_device q true :: post2) :
    pre2 = pre1 ++ [Event.find_data_file "doom64.rom" (some p), Event.add_device p true] ∧
    post2 = [Event.merge] ∧
    device_store (init win32 env fuel).trace = [p, q] ∧
    ∀ (dev : String → List (String × Nat)) (n : String), (∃ loc, (n, loc) ∈ dev q) →
      ∃ loc, (n, loc) ∈ dev q ∧
        merge ((device_store (init win32 env fuel).trace).map dev) n = some (1, loc) := by
  obtain ⟨L, ex, T, u, v, _, htr, hs, ht, hL, hpre1, hpost1⟩ :=
    init_split_loop win32 env fuel (by simp [add_device_loaders]) (by simp [TailEvent]) h1
  have hv : v = [Event.add_device p true] := by
    rcases loop_find_split hs hL with ⟨p0, hp0, hv, _⟩ | ⟨a0, rest, ha0, hv, _⟩
    · simp at hp0
      subst hp0
      exact hv
    · exfalso
      cases ha0 with
      | mount_failed _ =>
        rw [hv] at hpost1
        simp at hpost1
  subst hv
  have hmemL : Event.add_device p true ∈ L := by simp [hL]
  obtain ⟨hst, _⟩ := loop_store_of_mem hs hmemL
  rw [htr] at h2
  rcases split_in_shape (by simp [add_device_loaders]) h2 with ⟨u2, v2, hL2, _, _⟩ | ⟨u2, hT, hpre2⟩
  · exact absurd (mem_of_split hL2) (loop_not_mem hs (by simp [LoopEvent]))
  · have key : u2 = [] ∧ post2 = [Event.merge] ∧ device_store T = [q] := by
      generalize (init win32 env fuel).outcome = o at ht
      cases ht with
      | mounted _ q0 ok hex =>
        have hm := mem_of_split hT
        simp at hm
        subst hm
        obtain ⟨hu, hp⟩ := split_head (by simp) hT
        simp at hp
        obtain ⟨hok, hp2⟩ := hp
        subst hok
        exact ⟨hu, hp2, by simp [device_store]⟩
      | fatal_returned _ hex _ => have := mem_of_split hT; simp at this
      | fatal_halted _ hex _ => have := mem_of_split hT; simp at this
      | exited _ => simp at hT
      | halted => simp at hT
      | running => simp at hT
    obtain ⟨hu2, hp2, hstT⟩ := key
    have hstore : device_store (init win32 env fuel).trace = [p, q] := by
      rw [htr, device_store_append, device_store_append, hst, hstT]
      simp [device_store, add_device_loaders]
    refine ⟨?_, hp2, hstore, ?_⟩
    · rw [hpre2, hu2, hL, hpre1]
      simp
    · intro dev n hn
      rw [hstore]
      exact merge_device_mem _ 1 (dev q) n hn

theorem C6_base_before_supplemental_witness :
    ∃ pre1 post1 pre2 post2,
      (init false env_both_mounted 1).trace =
        pre1 ++ Event.find_data_file "doom64.rom" (some "/usr/share/doom64ex/doom64.rom") ::
          Event.add_device "/usr/share/doom64ex/doom64.rom" true :: post1 ∧
      (init false env_both_mounted 1).trace =
        pre2 ++ Event.find_data_file "doom64ex.pk3" (some "/usr/share/doom64ex/doom64ex.pk3") ::
          Event.add_device "/usr/share/doom64ex/doom64ex.pk3" true :: post2 ∧
      device_store (init false env_both_mounted 1).trace =
        ["/usr/share/doom64ex/doom64.rom", "/usr/share/doom64ex/doom64ex.pk3"] := by
  have h1 : (init false env_both_mounted 1).trace =
      [Event.add_device_loader Loader.zip_loader, Event.add_device_loader Loader.doom_loader,
        Event.add_device_loader Loader.rom_loader] ++
      Event.find_data_file "doom64.rom" (some "/usr/share/doom64ex/doom64.rom") ::
      Event.add_device "/usr/share/doom64ex/doom64.rom" true ::
      [Event.find_data_file "doom64ex.pk3" (some "/usr/share/doom64ex/doom64ex.pk3"),
        Event.add_device "/usr/share/doom64ex/doom64ex.pk3" true, Event.merge] := by decide
  have h2 : (init false env_both_mounted 1).trace =
      [Event.add_device_loader Loader.zip_loader, Event.add_device_loader Loader.doom_loader,
        Event.add_device_loader Loader.rom_loader,
        Event.find_data_file "doom64.rom" (some "/usr/share/doom64ex/doom64.rom"),
        Event.add_device "/usr/share/doom64ex/doom64.rom" true] ++
      Event.find_data_file "doom64ex.pk3" (some "/usr/share/doom64ex/doom64ex.pk3") ::
      Event.add_device "/usr/share/doom64ex/doom64ex.pk3" true :: [Event.merge] := by decide
  exact ⟨_, _, _, _, h1, h2,
    (C6_base_before_supplemental false env_both_mounted 1 _ _ _ _ _ _ h1 h2).2.2.1⟩

/-- C7: `wad::init` starts with the three registrations `zip_loader`,
`doom_loader`, `rom_loader`, in this order; no other registration follows, so
each is made once and before every other action; at every call of
`wad::add_device` the loader registry holds what it held before the run
followed by `[zip_loader, doom_loader, rom_loader]`, which is the whole
registry when it was empty before the run. -/
theorem C7_loaders_registered_first (win32 : Bool) (env : Env) (fuel : Nat) :
    (∃ rest, (init win32 env fuel).trace =
        Event.add_device_loader Loader.zip_loader :: Event.add_device_loader Loader.doom_loader ::
          Event.add_device_loader Loader.rom_loader :: rest ∧
        ∀ l, Event.add_device_loader l ∉ rest) ∧
    (∀ pre p ok post, (init win32 env fuel).trace = pre ++ Event.add_device p ok :: post →
      (∀ r0, loader_registry r0 pre =
        r0 ++ [Loader.zip_loader, Loader.doom_loader, Loader.rom_loader]) ∧
      loader_registry [] pre = [Loader.zip_loader, Loader.doom_loader, Loader.rom_loader]) := by
  obtain ⟨L, ex, T, _, htr, hs, ht⟩ := init_shape win32 env fuel
  have hrest : ∀ l, Event.add_device_loader l ∉ L ++ T := by
    intro l hm
    rcases List.mem_append.1 hm with hm | hm
    · exact loop_not_mem hs (by simp [LoopEvent]) hm
    · exact tail_not_mem ht (by simp [TailEvent]) hm
  constructor
  · exact ⟨L ++ T, by rw [htr]; simp [add_device_loaders], hrest⟩
  · intro pre p ok post h
    rw [htr, List.append_assoc] at h
    obtain ⟨u, hu1, hu2⟩ := split_left (by simp [add_device_loaders]) h
    have hu : ∀ l, Event.add_device_loader l ∉ u := by
      intro l hm
      exact hrest l (by rw [hu2]; simp [hm])
    have key : ∀ r0, loader_registry r0 pre =
        r0 ++ [Loader.zip_loader, Loader.doom_loader, Loader.rom_loader] := by
      intro r0
      rw [hu1, loader_registry_append, loader_registry_of_no_loader _ u hu]
      simp [loader_registry, add_device_loaders]
    exact ⟨key, by simpa using key []⟩

theorem C7_loaders_registered_first_witness :
    ∃ pre post, (init false env_both_mounted 1).trace =
        pre ++ Event.add_device "/usr/share/doom64ex/doom64.rom" true :: post ∧
      loader_registry [] pre = [Loader.zip_loader, Loader.doom_loader, Loader.rom_loader] := by
  have h : (init false env_both_mounted 1).trace =
      [Event.add_device_loader Loader.zip_loader, Event.add_device_loader Loader.doom_loader,
        Event.add_device_loader Loader.rom_loader,
        Event.find_data_file "doom64.rom" (some "/usr/share/doom64ex/doom64.rom")] ++
      Event.add_device "/usr/share/doom64ex/doom64.rom" true ::
      [Event.find_data_file "doom64ex.pk3" (some "/usr/share/doom64ex/doom64ex.pk3"),
        Event.add_device "/usr/share/doom64ex/doom64ex.pk3" true, Event.merge] := by decide
  exact ⟨_, _, h, ((C7_loaders_registered_first false env_both_mounted 1).2 _ _ _ _ h).2⟩

/-- C8: a located base container whose mount fails is handled like one that
was not located.  After `find_data_file("doom64.rom")` gave a path `p` and
`add_device(p)` failed, and equally after `find_data_file("doom64.rom")` gave
none: with the file picker the next actions read the working directory and
call the picker; without it the attempt was the first and only one and the
next action is `log::fatal("Couldn't find 'doom64.rom'")`. -/
theorem C8_failed_mount_like_not_found (win32 : Bool) (env : Env) (fuel : Nat) :
    (∀ p pre post, (init win32 env fuel).trace =
        pre ++ Event.find_data_file "doom64.rom" (some p) :: Event.add_device p false :: post →
      (win32 = true → ∃ cd r post', post = Event.GetCurrentDirectory cd ::
          Event.rom_select r :: Event.SetCurrentDirectory cd :: post') ∧
      (win32 = false → pre = [Event.add_device_loader Loader.zip_loader,
          Event.add_device_loader Loader.doom_loader,
          Event.add_device_loader Loader.rom_loader] ∧
        ∃ post', post = Event.fatal "Couldn't find 'doom64.rom'" :: post')) ∧
    (∀ pre post, (init win32 env fuel).trace =
        pre ++ Event.find_data_file "doom64.rom" none :: post →
      (win32 = true → ∃ cd r post', post = Event.GetCurrentDirectory cd ::
          Event.rom_select r :: Event.SetCurrentDirectory cd :: post') ∧
      (win32 = false → pre = [Event.add_device_loader Loader.zip_loader,
          Event.add_device_loader Loader.doom_loader,
          Event.add_device_loader Loader.rom_loader] ∧
        ∃ post', post = Event.fatal "Couldn't find 'doom64.rom'" :: post')) := by
  constructor
  · intro p pre post h
    obtain ⟨L, ex, T, u, v, _, _, hs, _, h1, h2, h3⟩ :=
      init_split_loop win32 env fuel (by simp [add_device_loaders]) (by simp [TailEvent]) h
    rcases loop_find_split hs h1 with ⟨p', _, hv, _⟩ | ⟨a', rest, ha', hv, hnext⟩
    · rw [hv] at h3
      simp at h3
    · have hb : a' = [Event.add_device p false] := by
        cases ha' with
        | mount_failed _ => rfl
      subst hb
      have hpost : post = rest ++ T := by
        rw [hv] at h3
        simpa using h3
      rcases hnext with ⟨hw, cd, r, rest', hrest⟩ | ⟨hw, hpre, hrest⟩
      · subst hw
        exact ⟨fun _ => ⟨cd, r, rest' ++ T, by simp [hpost, hrest]⟩, fun hw => by simp at hw⟩
      · subst hw
        exact ⟨fun hw => by simp at hw, fun _ => ⟨by simp [h2, hpre, add_device_loaders],
          T, by simp [hpost, hrest]⟩⟩
  · intro pre post h
    obtain ⟨L, ex, T, u, v, _, _, hs, _, h1, h2, h3⟩ :=
      init_split_loop win32 env fuel (by simp [add_device_loaders]) (by simp [TailEvent]) h
    rcases loop_find_split hs h1 with ⟨p', hp', _, _⟩ | ⟨a', rest, ha', hv, hnext⟩
    · simp at hp'
    · have hb : a' = [] := by
        cases ha' with
        | not_found => rfl
      subst hb
      have hpost : post = rest ++ T := by
        rw [hv] at h3
        simpa using h3
      rcases hnext with ⟨hw, cd, r, rest', hrest⟩ | ⟨hw, hpre, hrest⟩
      · subst hw
        exact ⟨fun _ => ⟨cd, r, rest' ++ T, by simp [hpost, hrest]⟩, fun hw => by simp at hw⟩
      · subst hw
        exact ⟨fun hw => by simp at hw, fun _ => ⟨by simp [h2, hpre, add_device_loaders],
          T, by simp [hpost, hrest]⟩⟩

theorem C8_failed_mount_like_not_found_witness :
    ∃ pre post, (init false env_pick_then_cancel 1).trace =
        pre ++ Event.find_data_file "doom64.rom" (some "C:/Doom64EX/doom64.rom") ::
          Event.add_device "C:/Doom64EX/doom64.rom" false :: post ∧
      pre = [Event.add_device_loader Loader.zip_loader,
        Event.add_device_loader Loader.doom_loader,
        Event.add_device_loader Loader.rom_loader] ∧
      ∃ post', post = Event.fatal "Couldn't find 'doom64.rom'" :: post' := by
  have h : (init false env_pick_then_cancel 1).trace =
      [Event.add_device_loader Loader.zip_loader, Event.add_device_loader Loader.doom_loader,
        Event.add_device_loader Loader.rom_loader] ++
      Event.find_data_file "doom64.rom" (some "C:/Doom64EX/doom64.rom") ::
      Event.add_device "C:/Doom64EX/doom64.rom" false ::
      [Event.fatal "Couldn't find 'doom64.rom'"] := by decide
  exact ⟨_, _, h,
    ((C8_failed_mount_like_not_found false env_pick_then_cancel 1).1 _ _ _ h).2 rfl⟩

/-- C9: without the file picker (`win32 = false`) a run with fuel for one
iteration ends, the loop does in any number of iterations what it does in
one, `find_data_file("doom64.rom")` is called once and the loop calls
`wad::add_device` at most once.  With the file picker, in a run that ended,
the number of searches of `doom64.rom` (one per iteration) is one more than
the number of paths the picker gave back. -/
theorem C9_loop_iterations (env : Env) (fuel : Nat) :
    ((init false env (fuel + 1)).outcome ≠ Outcome.running ∧
      iwad_loop false env (fuel + 1) add_device_loaders =
        iwad_loop false env 1 add_device_loaders ∧
      count_find "doom64.rom" (init false env (fuel + 1)).trace = 1 ∧
      count_add_device (iwad_loop false env (fuel + 1) add_device_loaders).1 ≤ 1) ∧
    ((init true env fuel).outcome ≠ Outcome.running →
      count_find "doom64.rom" (init true env fuel).trace =
        count_picked (init true env fuel).trace + 1) := by
  have hloaders : count_find "doom64.rom" add_device_loaders = 0 ∧
      count_picked add_device_loaders = 0 := by
    simp [count_find, count_picked, add_device_loaders]
  have htail : ∀ (w : Bool) (n : Nat) (L : List Event) (ex : LoopExit) (T : List Event),
      TailShape env (add_device_loaders ++ L) ex T (init w env n).outcome →
      count_find "doom64.rom" T = 0 ∧ count_picked T = 0 ∧
      ((init w env n).outcome ≠ Outcome.running → ex ≠ LoopExit.running) := by
    intro w n L ex T ht
    refine ⟨?_, ?_, ?_⟩
    · generalize (init w env n).outcome = o at ht
      cases ht <;> simp [count_find]
    · generalize (init w env n).outcome = o at ht
      cases ht <;> simp [count_picked]
    · intro ho hex
      subst hex
      exact ho (tail_of_running ht).2
  constructor
  · obtain ⟨L, ex, T, hl, htr, hs, ht⟩ := init_shape false env (fuel + 1)
    obtain ⟨hone, hrun⟩ := iwad_loop_other env fuel add_device_loaders
    have hex : ex ≠ LoopExit.running := by
      rw [hl] at hrun
      exact hrun
    obtain ⟨hc1, hc2, _⟩ := loop_count_other hs rfl hex
    obtain ⟨ht1, _, _⟩ := htail false (fuel + 1) L ex T ht
    refine ⟨?_, hone, ?_, ?_⟩
    · intro ho
      rw [ho] at ht
      cases ht
      exact hex rfl
    · rw [htr, count_find_append, count_find_append, hloaders.1, hc1, ht1]
    · rw [hl]
      exact hc2
  · intro ho
    obtain ⟨L, ex, T, _, htr, hs, ht⟩ := init_shape true env fuel
    obtain ⟨ht1, ht2, ht3⟩ := htail true fuel L ex T ht
    obtain ⟨hc, _⟩ := loop_count_win32 hs rfl
    rw [htr, count_find_append, count_find_append, count_picked_append, count_picked_append,
      hloaders.1, hloaders.2, ht1, ht2, hc (ht3 ho)]
    simp

theorem C9_loop_iterations_witness :
    (init true env_pick_then_cancel 2).outcome ≠ Outcome.running ∧
    count_find "doom64.rom" (init true env_pick_then_cancel 2).trace =
      count_picked (init true env_pick_then_cancel 2).trace + 1 ∧
    count_picked (init true env_pick_then_cancel 2).trace = 1 :=
  ⟨by decide, (C9_loop_iterations env_pick_then_cancel 2).2 (by decide), by decide⟩

/-- C10: every path passed to `wad::add_device` is the result of the call of
`app::find_data_file` right before it, made for `doom64.rom` or
`doom64ex.pk3`; the finder is asked for these two names only; a path given
back by the file picker is used as the source of the copy to `doom64.rom`,
after which the run goes on with a search (or the fuel ends), never with a
mount of the picked path. -/
theorem C10_mounted_paths_come_from_finder (win32 : Bool) (env : Env) (fuel : Nat) :
    (∀ pre p ok post, (init win32 env fuel).trace = pre ++ Event.add_device p ok :: post →
      ∃ pre' n, pre = pre' ++ [Event.find_data_file n (some p)] ∧
        (n = "doom64.rom" ∨ n = "doom64ex.pk3")) ∧
    (∀ n r, Event.find_data_file n r ∈ (init win32 env fuel).trace →
      n = "doom64.rom" ∨ n = "doom64ex.pk3") ∧
    (∀ pre s post, (init win32 env fuel).trace = pre ++ Event.rom_select (some s) :: post →
      ∃ cd post', post = Event.SetCurrentDirectory cd ::
          Event.CopyFile s "doom64.rom" false :: post' ∧
        (post' = [] ∨ ∃ r post'', post' = Event.find_data_file "doom64.rom" r :: post'')) := by
  refine ⟨?_, ?_, ?_⟩
  · intro pre p ok post h
    obtain ⟨L, ex, T, _, _, hs, ht, ⟨u, v, h1, h2, _⟩ | ⟨u, h1, h2⟩⟩ :=
      init_split win32 env fuel (by simp [add_device_loaders]) h
    · obtain ⟨pre', hp⟩ := loop_add_split hs h1
      exact ⟨add_device_loaders ++ pre', "doom64.rom", by simp [h2, hp], Or.inl rfl⟩
    · obtain ⟨hu, _, _⟩ := tail_add_split ht h1
      exact ⟨add_device_loaders ++ L, "doom64ex.pk3", by simp [h2, hu], Or.inr rfl⟩
  · intro n r hm
    obtain ⟨L, ex, T, _, htr, hs, ht⟩ := init_shape win32 env fuel
    rw [htr] at hm
    rcases List.mem_append.1 hm with hm | hm
    · rcases List.mem_append.1 hm with hm | hm
      · simp [add_device_loaders] at hm
      · have := loop_events hs _ hm
        exact Or.inl this
    · have := tail_events ht _ hm
      exact Or.inr this
  · intro pre s post h
    obtain ⟨L, ex, T, u, v, _, _, hs, ht, h1, h2, h3⟩ :=
      init_split_loop win32 env fuel (by simp [add_device_loaders]) (by simp [TailEvent]) h
    obtain ⟨cd, pre', post', _, hp2, hp3⟩ := loop_pick_split hs h1
    refine ⟨cd, post' ++ T, by simp [h3, hp2], ?_⟩
    rcases loop_head hp3 with ⟨hnil, hex⟩ | ⟨r, rest, hr⟩
    · left
      subst hex
      obtain ⟨hT, _⟩ := tail_of_running ht
      simp [hnil, hT]
    · right
      exact ⟨r, rest ++ T, by simp [hr]⟩

theorem C10_mounted_paths_come_from_finder_witness :
    ∃ pre post, (init true env_both_mounted 1).trace =
        pre ++ Event.add_device "/usr/share/doom64ex/doom64ex.pk3" true :: post ∧
      ∃ pre' n, pre = pre' ++
          [Event.find_data_file n (some "/usr/share/doom64ex/doom64ex.pk3")] ∧
        (n = "doom64.rom" ∨ n = "doom64ex.pk3") := by
  have h : (init true env_both_mounted 1).trace =
      [Event.add_device_loader Loader.zip_loader, Event.add_device_loader Loader.doom_loader,
        Event.add_device_loader Loader.rom_loader,
        Event.find_data_file "doom64.rom" (some "/usr/share/doom64ex/doom64.rom"),
        Event.add_device "/usr/share/doom64ex/doom64.rom" true,
        Event.find_data_file "doom64ex.pk3" (some "/usr/share/doom64ex/doom64ex.pk3")] ++
      Event.add_device "/usr/share/doom64ex/doom64ex.pk3" true :: [Event.merge] := by decide
  exact ⟨_, _, h, (C10_mounted_paths_come_from_finder true env_both_mounted 1).1 _ _ _ _ h⟩

end wad
